import Mathlib

/-!
Verification of the 1C bank-statement analyser (`src/processing.py`,
`src/normalization.py`, `src/utils.py`) against its natural-language
specification.

The Python code is shallowly embedded: strings are modelled as `List Char`,
Python dicts as insertion-ordered association lists, Python `None` as
`Option`, floats as the exact decimal values they are parsed from
(`DecQ` below), and the regular-expression
operations of the source as a small executable backtracking engine
(`reM` below) whose patterns transcribe the source's regexes node by node.

Modelling conventions, used throughout:
* `str.upper()` / `str.lower()` are modelled for ASCII and the Cyrillic
  block (the alphabet actually used by the program's data and patterns);
  other characters are left unchanged.
* Python `\s` is modelled by the ASCII whitespace characters plus NBSP,
  `\w` by ASCII alphanumerics, underscore and the Cyrillic block, `\d` by
  ASCII digits.
* `float(...)` is modelled by an exact decimal parser
  (`inf`/`nan`/underscore literals are out of the model's scope).
-/

set_option maxHeartbeats 1000000

/-- Python strings are modelled as lists of characters. -/
abbrev Str := List Char

/-- Python `\s` (whitespace) for the characters that occur in this domain:
space, tab, newline, carriage return, vertical tab, form feed, NBSP. -/
def pySpace (c : Char) : Bool :=
  c = ' ' || c = '\t' || c = '\n' || c = '\r' || c.toNat = 11 || c.toNat = 12 ||
  c.toNat = 0xa0

/-- Python `\d` (ASCII decimal digits). -/
def isDigitCh (c : Char) : Bool := '0' ≤ c && c ≤ '9'

/-- Cyrillic uppercase А..Я (U+0410..U+042F) or Ё (U+0401). -/
def isCyrUpper (c : Char) : Bool :=
  (0x410 ≤ c.toNat && c.toNat ≤ 0x42F) || c.toNat = 0x401

/-- Cyrillic lowercase а..я (U+0430..U+044F) or ё (U+0451). -/
def isCyrLower (c : Char) : Bool :=
  (0x430 ≤ c.toNat && c.toNat ≤ 0x44F) || c.toNat = 0x451

/-- ASCII letter. -/
def isAsciiLetter (c : Char) : Bool :=
  ('A' ≤ c && c ≤ 'Z') || ('a' ≤ c && c ≤ 'z')

/-- Python `\w` (word character) for this domain: ASCII alphanumerics,
underscore, and the Cyrillic block U+0400..U+04FF. -/
def isWordCh (c : Char) : Bool :=
  isAsciiLetter c || isDigitCh c || c = '_' ||
  (0x400 ≤ c.toNat && c.toNat ≤ 0x4FF)

/-- Alphabetic character (`str.isalpha`), for ASCII and Cyrillic. -/
def isAlphaCh (c : Char) : Bool :=
  isAsciiLetter c || isCyrUpper c || isCyrLower c

/-- `str.upper()` on one character (ASCII + Cyrillic; ё → Ё). -/
def upCh (c : Char) : Char :=
  if 'a' ≤ c && c ≤ 'z' then Char.ofNat (c.toNat - 32)
  else if 0x430 ≤ c.toNat && c.toNat ≤ 0x44F then Char.ofNat (c.toNat - 32)
  else if c.toNat = 0x451 then Char.ofNat 0x401
  else c

/-- `str.lower()` on one character (ASCII + Cyrillic; Ё → ё). -/
def downCh (c : Char) : Char :=
  if 'A' ≤ c && c ≤ 'Z' then Char.ofNat (c.toNat + 32)
  else if 0x410 ≤ c.toNat && c.toNat ≤ 0x42F then Char.ofNat (c.toNat + 32)
  else if c.toNat = 0x401 then Char.ofNat 0x451
  else c

/-- `str.upper()`. -/
def pyUpper (s : Str) : Str := s.map upCh

/-- `str.lower()`. -/
def pyLower (s : Str) : Str := s.map downCh

/-- `str.strip()` — remove leading and trailing whitespace. -/
def pyStrip (s : Str) : Str :=
  ((s.dropWhile (fun c => pySpace c)).reverse.dropWhile (fun c => pySpace c)).reverse

/-- `str.strip(chars)` — remove leading/trailing characters from a set. -/
def pyStripSet (bad : List Char) (s : Str) : Str :=
  ((s.dropWhile (fun c => bad.contains c)).reverse.dropWhile
    (fun c => bad.contains c)).reverse

/-- `str.isdigit()` — non-empty and all digits (ASCII model). -/
def pyIsdigit (s : Str) : Bool := !s.isEmpty && s.all (fun c => isDigitCh c)

/-- Python `needle in hay` substring test. -/
def containsSub (needle hay : Str) : Bool :=
  (List.range (hay.length + 1)).any (fun i => needle.isPrefixOf (hay.drop i))

/-- `str.capitalize()` — first character uppercased, the rest lowercased. -/
def pyCapitalize (s : Str) : Str :=
  match s with
  | [] => []
  | c :: t => upCh c :: pyLower t

/-- `str.split()` — split on whitespace runs, discarding empty pieces. -/
def pySplit (s : Str) : List Str :=
  match s with
  | [] => []
  | _ =>
    let rec go : Str → Str → List Str
      | acc, [] => if acc.isEmpty then [] else [acc.reverse]
      | acc, c :: t =>
        if pySpace c then
          if acc.isEmpty then go [] t else acc.reverse :: go [] t
        else go (c :: acc) t
    go [] s

/-- Python truthiness of an optional string: `None` and `""` are falsy. -/
def falsyOpt (o : Option Str) : Bool :=
  match o with
  | none => true
  | some s => s.isEmpty

/-- Python `a or b` on strings. -/
def orStr (a b : Str) : Str := if a.isEmpty then b else a

/-- Python `d.get(k) or d.get(k2)` chaining on optional strings. -/
def orOptStr (a b : Option Str) : Option Str := if falsyOpt a then b else a

/-! ## A small backtracking regular-expression engine

The engine mirrors the semantics of the Python `re` module on the pattern
fragments the source uses: ordered alternation, greedy and lazy repetition
of subpatterns, word boundaries, anchors, and lookahead.  `reM` is
fuel-indexed; `reFuel` below always provides enough fuel for the pattern
shapes transcribed from the source. -/

inductive RE where
  | eps : RE
  | cls (p : Char → Bool) : RE
  | lit (ci : Bool) (cs : Str) : RE
  | cat (a b : RE) : RE
  | alt (a b : RE) : RE
  | star (greedy : Bool) (a : RE) : RE
  | bound : RE
  | bos : RE
  | eos : RE
  | look (a : RE) : RE

/-- Number of AST nodes, used only to compute a sufficient fuel bound. -/
def reSize : RE → Nat
  | .eps => 1
  | .cls _ => 1
  | .lit _ cs => cs.length + 1
  | .cat a b => reSize a + reSize b + 1
  | .alt a b => reSize a + reSize b + 1
  | .star _ a => reSize a + 1
  | .bound => 1
  | .bos => 1
  | .eos => 1
  | .look a => reSize a + 1

/-- Literal matcher: consume `cs` (case-insensitively if `ci`), returning
the new previous-character context and the rest of the input. -/
def litM (ci : Bool) : Str → Option Char → Str → Option (Option Char × Str)
  | [], prev, s => some (prev, s)
  | c :: cs, _, d :: t =>
    if (if ci then upCh d = upCh c else d = c) then litM ci cs (some d) t
    else none
  | _ :: _, _, [] => none

/-- Is the previous-character context a word character? -/
def prevWord (prev : Option Char) : Bool :=
  match prev with
  | none => false
  | some c => isWordCh c

/-- Is the head of the remaining input a word character? -/
def headWord (s : Str) : Bool :=
  match s with
  | [] => false
  | c :: _ => isWordCh c

/-- Backtracking matcher.  `reM fuel r prev s k` tries to match `r` at the
current position (`prev` is the character before it, `none` at the start of
the string) and calls the continuation `k` on each candidate way of
matching, in the same order Python's `re` engine explores them, returning
the first success.  Alternation is ordered; `star true` is greedy,
`star false` lazy; repetition bodies must consume input (the source's
patterns never match empty repetition bodies). -/
def reM : Nat → RE → Option Char → Str →
    (Option Char → Str → Option Str) → Option Str
  | 0, _, _, _, _ => none
  | fuel + 1, r, prev, s, k =>
    match r with
    | .eps => k prev s
    | .cls p =>
      match s with
      | [] => none
      | c :: t => if p c then k (some c) t else none
    | .lit ci cs =>
      match litM ci cs prev s with
      | some (p2, s2) => k p2 s2
      | none => none
    | .cat a b => reM fuel a prev s (fun p2 s2 => reM fuel b p2 s2 k)
    | .alt a b =>
      match reM fuel a prev s k with
      | some res => some res
      | none => reM fuel b prev s k
    | .star g a =>
      let eat := reM fuel a prev s (fun p2 s2 =>
        if s2.length < s.length then reM fuel (.star g a) p2 s2 k else none)
      if g then
        match eat with
        | some res => some res
        | none => k prev s
      else
        match k prev s with
        | some res => some res
        | none => eat
    | .bound => if prevWord prev = headWord s then none else k prev s
    | .bos => if prev.isNone then k prev s else none
    | .eos => if s.isEmpty then k prev s else none
    | .look a =>
      match reM fuel a prev s (fun _ s2 => some s2) with
      | some _ => k prev s
      | none => none

/-- Fuel that is always sufficient for the source's patterns. -/
def reFuel (r : RE) (s : Str) : Nat := 4 * reSize r + 2 * s.length + 64

/-- Try to match `r` at the current position; on success return the number
of characters consumed (the length of the leftmost match found in
backtracking order, as Python's `re` does). -/
def reTry (r : RE) (prev : Option Char) (s : Str) : Option Nat :=
  match reM (reFuel r s) r prev s (fun _ s2 => some s2) with
  | some rest => some (s.length - rest.length)
  | none => none

/-- `pattern.subn(repl, s)`: replace every non-overlapping match of `r` in
`s` by `repl`, scanning left to right; returns the result and the number of
replacements. -/
def subnScan (r : RE) (repl : Str) : Nat → Option Char → Str → Str × Nat
  | 0, _, s => (s, 0)
  | fuel + 1, prev, s =>
    match reTry r prev s with
    | some 0 =>
      match s with
      | [] => (repl, 1)
      | c :: t =>
        let (out, n) := subnScan r repl fuel (some c) t
        (repl ++ c :: out, n + 1)
    | some (n + 1) =>
      let consumed := s.take (n + 1)
      let (out, m) := subnScan r repl fuel consumed.getLast? (s.drop (n + 1))
      (repl ++ out, m + 1)
    | none =>
      match s with
      | [] => ([], 0)
      | c :: t =>
        let (out, n) := subnScan r repl fuel (some c) t
        (c :: out, n)

/-- `pattern.subn(repl, s)` from the start of the string. -/
def reSubn (r : RE) (repl : Str) (s : Str) : Str × Nat :=
  subnScan r repl (s.length + 1) none s

/-- `pattern.sub(repl, s)`. -/
def reSub (r : RE) (repl : Str) (s : Str) : Str := (reSubn r repl s).1

/-- `pattern.finditer(s)`: the list of matched texts, scanning left to
right over non-overlapping matches. -/
def findScan (r : RE) : Nat → Option Char → Str → List Str
  | 0, _, _ => []
  | fuel + 1, prev, s =>
    match reTry r prev s with
    | some 0 =>
      match s with
      | [] => [[]]
      | c :: t => [] :: findScan r fuel (some c) t
    | some (n + 1) =>
      let consumed := s.take (n + 1)
      consumed :: findScan r fuel consumed.getLast? (s.drop (n + 1))
    | none =>
      match s with
      | [] => []
      | c :: t => findScan r fuel (some c) t

/-- All matched texts of `r` in `s` (`finditer` / `findall`). -/
def reFindTexts (r : RE) (s : Str) : List Str :=
  findScan r (s.length + 1) none s

/-- Ordered alternation of a list of patterns (first alternative wins). -/
def reAlts (rs : List RE) : RE :=
  match rs with
  | [] => .cls (fun _ => false)
  | [r] => r
  | r :: rest => .alt r (reAlts rest)

/-- Concatenation of a list of patterns. -/
def reSeq (rs : List RE) : RE :=
  match rs with
  | [] => .eps
  | [r] => r
  | r :: rest => .cat r (reSeq rest)

/-- `p+` (greedy). -/
def rePlus (r : RE) : RE := .cat r (.star true r)

/-- `p?` (greedy). -/
def reOpt (r : RE) : RE := .alt r .eps

/-- `p{n}`: exactly `n` copies. -/
def reRep (r : RE) (n : Nat) : RE := reSeq (List.replicate n r)

/-- `\s*` -/
def wsStar : RE := .star true (.cls (fun c => pySpace c))

/-- `\s+` -/
def wsPlus : RE := rePlus (.cls (fun c => pySpace c))

/-- `.` without DOTALL (any character except newline). -/
def anyNoNL : RE := .cls (fun c => c ≠ '\n')

/-- `.` with DOTALL. -/
def anyCh : RE := .cls (fun _ => true)

/-- `.*?` with DOTALL (lazy). -/
def lazyAny : RE := .star false anyCh

/-- `\d` -/
def digitCls : RE := .cls (fun c => isDigitCh c)

/-! ## normalization.py — patterns and constants (v7.1.3) -/

/-- The apostrophe character. -/
def apos : Char := Char.ofNat 39

/-- `LEGAL_FORMS_KEYWORDS`: ordered catalogue of legal-form keywords,
transcribed from `normalization.py`. -/
def LEGAL_FORMS_KEYWORDS : List (Str × List Str) :=
  [(("ИП").data, [("ИНДИВИДУАЛЬНЫЙ ПРЕДПРИНИМАТЕЛЬ").data, ("ИП").data]),
   (("ООО").data, [("ОБЩЕСТВО С ОГРАНИЧЕННОЙ ОТВЕТСТВЕННОСТЬЮ").data, ("ООО").data]),
   (("АО").data, [("ПУБЛИЧНОЕ АКЦИОНЕРНОЕ ОБЩЕСТВО").data,
     ("НЕПУБЛИЧНОЕ АКЦИОНЕРНОЕ ОБЩЕСТВО").data, ("АКЦИОНЕРНОЕ ОБЩЕСТВО").data,
     ("ЗАКРЫТОЕ АКЦИОНЕРНОЕ ОБЩЕСТВО").data, ("ОТКРЫТОЕ АКЦИОНЕРНОЕ ОБЩЕСТВО").data,
     ("ПАО").data, ("НАО").data, ("ЗАО").data, ("ОАО").data, ("АО").data]),
   (("ГОС").data, [("ГОСУДАРСТВЕННОЕ УЧРЕЖДЕНИЕ").data,
     ("ФОНД СОЦИАЛЬНОГО СТРАХОВАНИЯ").data, ("ИФНС").data, ("УФК").data,
     ("ГУ").data, ("ФСС").data, ("ФГБУ").data, ("ФКУ").data, ("ФАУ").data,
     ("ФГУП").data, ("МИНИСТЕРСТВО").data, ("ДЕПАРТАМЕНТ").data,
     ("АДМИНИСТРАЦИЯ").data, ("КАЗНАЧЕЙСТВО").data, ("РОСПОТРЕБНАДЗОР").data,
     ("РОСМОЛОДЕЖЬ").data, ("УПРАВЛЕНИЕ МВД").data, ("ОТДЕЛЕНИЕ ФОНДА").data,
     ("ТУРИСТИЧЕСКИЙ ОТДЕЛ").data, ("ПОСОЛЬСТВО").data, ("УГИБДД").data,
     ("ОСП").data, ("АДМИНИСТРАТОР МОСКОВСКОГО ПАРКОВОЧНОГО").data]),
   (("ФОНД").data, [("БЛАГОТВОРИТЕЛЬНЫЙ ФОНД").data, ("ФОНД").data]),
   (("АНО").data, [("АВТОНОМНАЯ НЕКОММЕРЧЕСКАЯ ОРГАНИЗАЦИЯ").data, ("АНО").data]),
   (("НКО").data, [("НЕКОММЕРЧЕСКАЯ ОРГАНИЗАЦИЯ").data, ("НКО").data]),
   (("АССОЦ").data, [("АССОЦИАЦИЯ").data]),
   (("КООП").data, [("КООПЕРАТИВ").data, ("КФХ").data]),
   (("ПАРТНЕРСТВО").data, [("ПАРТНЕРСТВО").data, ("НП").data]),
   (("АДВ_БЮРО").data, [("АДВОКАТСКОЕ БЮРО").data]),
   (("КОЛЛ_АДВ").data, [("КОЛЛЕГИЯ АДВОКАТОВ").data]),
   (("ФИЛИАЛ").data, [("ФИЛИАЛ").data, ("ПРЕДСТАВИТЕЛЬСТВО").data]),
   (("LTD").data, [("LIMITED").data, ("LTD").data]),
   (("LLC").data, [("LLC").data]),
   (("GMBH").data, [("GMBH").data]),
   (("SIA").data, [("SIA").data]),
   (("AS").data, [("AS").data]),
   (("UAB").data, [("UAB").data]),
   (("TOO").data, [("TOO").data]),
   (("CORP").data, [("CORPORATION").data, ("CORP").data]),
   (("INC").data, [("INC").data]),
   (("PLC").data, [("PLC").data])]

/-- Lookup of a form key in `LEGAL_FORMS_KEYWORDS`. -/
def lfkLookup (k : Str) : Option (List Str) :=
  (LEGAL_FORMS_KEYWORDS.find? (fun p => p.1 = k)).map (fun p => p.2)

/-- `\(\s*KW\s*\)` — parenthesised keyword occurrence. -/
def parenPat (kw : Str) : RE :=
  reSeq [.lit false ("(").data, wsStar, .lit true kw, wsStar, .lit false (")").data]

/-- FIND pattern for the ИП form: `(?i)(?:(?:^KW\s+)|(?:\(\s*KW\s*\)))`. -/
def findPatIP (kw : Str) : RE :=
  .alt (reSeq [.bos, .lit true kw, wsPlus]) (parenPat kw)

/-- FIND pattern for every other form: `(?i)(?:\bKW\b|\(\s*KW\s*\))`. -/
def findPatGen (kw : Str) : RE :=
  .alt (reSeq [.bound, .lit true kw, .bound]) (parenPat kw)

/-- Compiled FIND pattern for a `(form_key, keyword)` pair
(`COMPILED_LEGAL_FORMS_FIND`). -/
def findPat (formKey kw : Str) : RE :=
  if formKey = ("ИП").data then findPatIP kw else findPatGen kw

/-- `match.group(0).strip('() ')`. -/
def stripParenSpace (s : Str) : Str := pyStripSet ['(', ')', ' '] s

/-- All `(form_key, stripped-match-length)` pairs produced by iterating the
keyword catalogue over the uppercased name, in the source's nested
iteration order. -/
def legalFormMatchList (upperName : Str) : List (Str × Nat) :=
  LEGAL_FORMS_KEYWORDS.flatMap (fun fk =>
    fk.2.flatMap (fun kw =>
      (reFindTexts (findPat fk.1 kw) upperName).map
        (fun t => (fk.1, (stripParenSpace t).length))))

/-- One step of the best-match selection loop of `detect_final_legal_form`:
a strictly longer match wins; an equally long ИП match takes over. -/
def bestStep (st : Option Str × Nat) (m : Str × Nat) : Option Str × Nat :=
  if st.2 < m.2 then (some m.1, m.2)
  else if m.2 = st.2 ∧ m.1 = ("ИП").data ∧ st.1 ≠ some (("ИП").data) then
    (some (("ИП").data), st.2)
  else st

/-- The `(best_match_form, max_len)` accumulator after the scan loop. -/
def bestMatchForm (ms : List (Str × Nat)) : Option Str × Nat :=
  ms.foldl bestStep (none, 0)

/-- The longest matched span in a match list (`max_len` over all entries). -/
def maxSpan (ms : List (Str × Nat)) : Nat :=
  ms.foldl (fun a m => max a m.2) 0

/-- Character class `[\d.,\"\']` used before the FIO structural check. -/
def fioCheckCls : RE :=
  .cls (fun c => isDigitCh c || c = '.' || c = ',' || c = '"' || c = apos)

/-- `\b[А-ЯЁ][а-яё\-]+\b` — one capitalised Cyrillic word. -/
def fioWordPat : RE :=
  reSeq [.bound, .cls (fun c => isCyrUpper c),
    rePlus (.cls (fun c => isCyrLower c || c = '-')), .bound]

/-- `IS_FIO_STRUCTURE = ^([А-ЯЁа-яё\-]+\s+)+[А-ЯЁа-яё\-.]+$`. -/
def IS_FIO_STRUCTURE : RE :=
  reSeq [.bos,
    rePlus (reSeq [rePlus (.cls (fun c => isCyrUpper c || isCyrLower c || c = '-')), wsPlus]),
    rePlus (.cls (fun c => isCyrUpper c || isCyrLower c || c = '-' || c = '.')), .eos]

/-- `QUOTES_PATTERN = [\"„""«»\'`<>]+` (the character set of the source). -/
def QUOTES_PATTERN : RE :=
  rePlus (.cls (fun c => c = '"' || c = '„' || c = '«' || c = '»' || c = apos ||
    c.toNat = 96 || c = '<' || c = '>'))

/-- `SPACES_PATTERN = \s+`. -/
def SPACES_PATTERN : RE := wsPlus

/-- Trash rule #0: `(?:^|\s)(?:Р/СЧ?|Л/СЧ?|К/СЧ?|БИК)\s*\d+.*` (IGNORECASE). -/
def trash0 : RE :=
  reSeq [.alt .bos (.cls (fun c => pySpace c)),
    reAlts [reSeq [.lit true ("Р/С").data, reOpt (.lit true ("Ч").data)],
            reSeq [.lit true ("Л/С").data, reOpt (.lit true ("Ч").data)],
            reSeq [.lit true ("К/С").data, reOpt (.lit true ("Ч").data)],
            .lit true ("БИК").data],
    wsStar, rePlus digitCls, .star true anyNoNL]

/-- Trash rule #1: `\s+\bИНН\s*\d{10}(\d{2})?\b` (IGNORECASE). -/
def trash1 : RE :=
  reSeq [wsPlus, .bound, .lit true ("ИНН").data, wsStar, reRep digitCls 10,
    reOpt (reSeq [digitCls, digitCls]), .bound]

/-- Trash rule #2: `\s+\bКПП\s*\d{9}\b` (IGNORECASE). -/
def trash2 : RE :=
  reSeq [wsPlus, .bound, .lit true ("КПП").data, wsStar, reRep digitCls 9, .bound]

/-- Trash rule #3: `\s+\b(УНП|БИН)\s*\d+\b` (IGNORECASE). -/
def trash3 : RE :=
  reSeq [wsPlus, .bound, .alt (.lit true ("УНП").data) (.lit true ("БИН").data),
    wsStar, rePlus digitCls, .bound]

/-- Trash rule #4: `\s+ID[/\s:]*\d+` (case-sensitive). -/
def trash4 : RE :=
  reSeq [wsPlus, .lit false ("ID").data,
    .star true (.cls (fun c => c = '/' || pySpace c || c = ':')), rePlus digitCls]

/-- Trash rule #5: `\s*//.*?//\s*` (DOTALL). -/
def trash5 : RE :=
  reSeq [wsStar, .lit false ("//").data, lazyAny, .lit false ("//").data, wsStar]

/-- Keyword list of trash rule #6. -/
def trash6kw : List Str :=
  [("РОССИЯ").data, ("РФ").data, ("РЕСПУБЛИКА").data, ("КАЗАХСТАН").data,
   ("ЛИТВА").data, ("ЛАТВИЯ").data, ("РБ").data, ("KZ").data, ("LT").data,
   ("LV").data, ("DE").data, ("ГОРОД").data, ("ОБЛАСТЬ").data, ("КРАЙ").data,
   ("АО").data, ("ГО").data]

/-- Trash rule #6:
`\s+\b(РОССИЯ|…|ГО)\b.*?(?=(//|$|\s+В\s+\w+\s+БАНК))` (IGNORECASE, DOTALL). -/
def trash6 : RE :=
  reSeq [wsPlus, .bound, reAlts (trash6kw.map (fun k => .lit true k)), .bound,
    lazyAny,
    .look (reAlts [.lit false ("//").data, .eos,
      reSeq [wsPlus, .lit true ("В").data, wsPlus, rePlus (.cls (fun c => isWordCh c)),
        wsPlus, .lit true ("БАНК").data]])]

/-- Trash rule #7: `\b\d{6}\b` — six-digit postal code. -/
def trash7 : RE := reSeq [.bound, reRep digitCls 6, .bound]

/-- Trash rule #8:
`\s+В\s+.*?\s+(БАНК\b|ФИЛИАЛ\b|ОАО\b|ПАО\b|АО\b|УФК\b|ОТДЕЛЕНИЕ\b)`
(IGNORECASE, DOTALL). -/
def trash8 : RE :=
  reSeq [wsPlus, .lit true ("В").data, wsPlus, lazyAny, wsPlus,
    reAlts ([("БАНК").data, ("ФИЛИАЛ").data, ("ОАО").data, ("ПАО").data,
      ("АО").data, ("УФК").data, ("ОТДЕЛЕНИЕ").data].map
        (fun k => .cat (.lit true k) .bound))]

/-- Trash rule #9: `\s+Р/С\s+NULL\b` (IGNORECASE). -/
def trash9 : RE :=
  reSeq [wsPlus, .lit true ("Р/С").data, wsPlus, .lit true ("NULL").data, .bound]

/-- Trash rule #10: `\s+\(.*\)$` (DOTALL). -/
def trash10 : RE :=
  reSeq [wsPlus, .lit false ("(").data, .star true anyCh, .lit false (")").data, .eos]

/-- `TRASH_PATTERNS_SPECIFIC`, in source order. -/
def TRASH_PATTERNS_SPECIFIC : List RE :=
  [trash0, trash1, trash2, trash3, trash4, trash5, trash6, trash7, trash8,
   trash9, trash10]

/-! ## normalization.py — functions -/

/-- The tax-ID-shape fallback of `detect_final_legal_form`: a 12-character
stripped tax ID means a private individual, a 10-character one a generic
legal entity. -/
def innFormOf (inn : Option Str) : Option Str :=
  match inn with
  | none => none
  | some i =>
    if i.isEmpty then none
    else if (pyStrip i).length = 12 then some (("ФЛ").data)
    else if (pyStrip i).length = 10 then some (("ЮЛ").data)
    else none

/-- The structural full-name fallback of `detect_final_legal_form`: two or
more capitalised Cyrillic words shaped like a person's name. -/
def fioFormOf (raw_name : Str) : Str :=
  if 2 ≤ (reFindTexts fioWordPat (pyStrip (reSub fioCheckCls [] raw_name))).length &&
      (reTry IS_FIO_STRUCTURE none (pyStrip (reSub fioCheckCls [] raw_name))).isSome
  then ("ФЛ").data
  else ("ДРУГОЕ").data

/-- `detect_final_legal_form(raw_name, inn)` — determine the legal form. -/
def detect_final_legal_form (raw_name : Str) (inn : Option Str) : Str :=
  if raw_name.isEmpty then ("ФЛ").data
  else
    let upper_name := pyStrip (pyUpper raw_name)
    if upper_name.isEmpty then ("ФЛ").data
    else
      match (bestMatchForm (legalFormMatchList upper_name)).1 with
      | some f => f
      | none =>
        match innFormOf inn with
        | some r => r
        | none => fioFormOf raw_name

/-- `^ИП\s+` (IGNORECASE), used by `format_fio_display`. -/
def ipPrefixPat : RE := reSeq [.bos, .lit true ("ИП").data, wsPlus]

/-- Match of `INITIALS_PATTERN = \b([А-ЯЁ])\s*\.\s*([А-ЯЁ])\s*\.?$` at the
current position, returning the two captured letters. -/
def initialsAt (prev : Option Char) (s : Str) : Option (Char × Char) :=
  if prevWord prev = headWord s then none
  else
    match s with
    | [] => none
    | c1 :: r1 =>
      if isCyrUpper c1 then
        match r1.dropWhile (fun c => pySpace c) with
        | '.' :: r3 =>
          match r3.dropWhile (fun c => pySpace c) with
          | [] => none
          | c2 :: r5 =>
            if isCyrUpper c2 then
              let r6 := r5.dropWhile (fun c => pySpace c)
              if r6 = [] || r6 = ['.'] then some (c1, c2) else none
            else none
        | _ => none
      else none

/-- `INITIALS_PATTERN.search(name)`: leftmost match, returning the prefix
before the match (`name[:match.start()]`) and the two captured letters. -/
def initialsScan : Str → Option Char → Str → Option (Str × Char × Char)
  | accRev, prev, s =>
    match initialsAt prev s with
    | some (c1, c2) => some (accRev.reverse, c1, c2)
    | none =>
      match s with
      | [] => none
      | c :: t => initialsScan (c :: accRev) (some c) t

/-- `INITIALS_PATTERN.search` on a whole string. -/
def initialsSearch (s : Str) : Option (Str × Char × Char) := initialsScan [] none s

/-- The tail of `format_fio_display` reached when no usable
surname-plus-initials match was found. -/
def fioRest (words : List Str) : Str :=
  let meaningful := words.filter (fun w => 1 < w.length || (!w.isEmpty && w.all (fun c => isAlphaCh c)))
  let likelyFio := (meaningful.take 3).all (fun w =>
    match w with
    | c :: _ => isCyrUpper c
    | [] => false)
  if 3 ≤ meaningful.length && likelyFio then
    pyCapitalize (meaningful.getD 0 []) ++ ' ' ::
      [upCh ((meaningful.getD 1 []).headD ' '), '.',
       upCh ((meaningful.getD 2 []).headD ' '), '.']
  else if meaningful.length = 2 && likelyFio then
    pyCapitalize (meaningful.getD 0 []) ++ ' ' :: pyCapitalize (meaningful.getD 1 [])
  else if meaningful.length = 1 then pyCapitalize (meaningful.getD 0 [])
  else
    pyCapitalize (words.headD []) ++
      (if 1 < words.length then
        ' ' :: (List.intercalate [' '] words.tail)
      else [])

/-- `format_fio_display(fio_str)` — format a person's name as
"Surname I.O.". -/
def format_fio_display (fio_str : Str) : Str :=
  if fio_str.isEmpty then ("?").data
  else
    let name0 := reSub ipPrefixPat [] (pyStrip fio_str)
    let name1 := reSub QUOTES_PATTERN [] name0
    let name := pyStrip (reSub SPACES_PATTERN ([' ']) name1)
    let words := (pySplit name).filterMap (fun w =>
      let w2 := pyStripSet ['.', ','] w
      if w2.isEmpty then none else some w2)
    if words.isEmpty then ("?").data
    else
      match initialsSearch name with
      | some (pre, c1, c2) =>
        let surnamePart := pyStrip pre
        if !surnamePart.isEmpty then
          let surname := (pySplit surnamePart).getLastD []
          pyCapitalize surname ++ [' ', upCh c1, '.', upCh c2, '.']
        else fioRest words
      | none => fioRest words

/-- OPF-removal pattern for the ИП branch:
`(?i)(?:\bKW\b\s*|\s*\(\s*KW\s*\)\s*)`. -/
def opfSubPatIP (kw : Str) : RE :=
  .alt (reSeq [.bound, .lit true kw, .bound, wsStar])
       (reSeq [wsStar, .lit false ("(").data, wsStar, .lit true kw, wsStar,
         .lit false (")").data, wsStar])

/-- OPF-removal pattern for the other forms:
`(?i)(?:\bKW\b\s*|\s*\bKW\b|\s*\(\s*KW\s*\)\s*)`. -/
def opfSubPatGen (kw : Str) : RE :=
  reAlts [reSeq [.bound, .lit true kw, .bound, wsStar],
          reSeq [wsStar, .bound, .lit true kw, .bound],
          reSeq [wsStar, .lit false ("(").data, wsStar, .lit true kw, wsStar,
            .lit false (")").data, wsStar]]

/-- Stable insertion of a string into a list sorted by descending length
(later elements of equal length stay after earlier ones). -/
def insertByLenDesc (x : Str) : List Str → List Str
  | [] => [x]
  | y :: t => if y.length < x.length then x :: y :: t else y :: insertByLenDesc x t

/-- `sorted(patterns, key=len, reverse=True)` (stable). -/
def sortByLenDesc (l : List Str) : List Str :=
  l.foldl (fun acc x => insertByLenDesc x acc) []

/-- Validity gate of step 5 of `normalize_name_core`: non-empty, longer
than one character, not all digits, not only `-`, `.`, `,`. -/
def coreGate (s : Str) : Bool :=
  !s.isEmpty && 1 < s.length && !pyIsdigit s &&
    !(!s.isEmpty && s.all (fun c => c = '-' || c = '.' || c = ','))

/-- Output casing of `normalize_name_core`: organisational forms are
uppercased, person forms keep natural casing. -/
def coreCase (detected_form s : Str) : Str :=
  if detected_form = ("ИП").data || detected_form = ("ФЛ").data ||
      detected_form = ("ИП/ФЛ").data then s
  else pyUpper s

/-- Steps 1–4 of `normalize_name_core`: trash removal, legal-form removal,
quote removal and whitespace collapsing; `none` only on the source's early
returns for empty input or an empty trash-cleaning result. -/
def coreClean (raw_name : Str) (detected_form : Str) : Option Str :=
  if raw_name.isEmpty then none
  else
    let name := pyStrip raw_name
    if name.isEmpty then none
    else
      let cleaned0 := TRASH_PATTERNS_SPECIFIC.foldl (fun c p => reSub p ([' ']) c) name
      let cleaned := pyStrip (reSub SPACES_PATTERN ([' ']) cleaned0)
      if cleaned.isEmpty then none
      else
        let core_name :=
          match lfkLookup detected_form with
          | none => cleaned
          | some kws =>
            if detected_form = ("ИП").data then
              let st0 : Str × Bool :=
                if (("ИП ").data).isPrefixOf (pyUpper cleaned) then
                  (pyStrip (cleaned.drop 3), true)
                else (cleaned, false)
              let st := kws.foldl (fun (st : Str × Bool) kw =>
                if kw = ("ИП").data && st.2 then st
                else
                  let r := reSubn (opfSubPatIP kw) ([' ']) st.1
                  if 0 < r.2 then (r.1, true) else st) st0
              pyStrip (reSub SPACES_PATTERN ([' ']) st.1)
            else
              let temp := (sortByLenDesc kws).foldl (fun t kw =>
                let r := reSubn (opfSubPatGen kw) ([' ']) t
                if 0 < r.2 then r.1 else t) cleaned
              pyStrip (reSub SPACES_PATTERN ([' ']) temp)
        let noQuotes := pyStrip (reSub QUOTES_PATTERN [] core_name)
        some (pyStrip (reSub SPACES_PATTERN ([' ']) noQuotes))

/-- `normalize_name_core(raw_name, detected_form)` — clean the name of
trash and of the detected legal form; `None` when the result is invalid. -/
def normalize_name_core (raw_name : Str) (detected_form : Str) : Option Str :=
  match coreClean raw_name detected_form with
  | none => none
  | some final =>
    if coreGate final then some (coreCase detected_form final) else none

/-- Last-resort name when the cleaned core is unusable: a meaningful
non-default form is used as the display name, otherwise `"?"`. -/
def fallbackName (form : Str) : Str :=
  if form ≠ ("ФЛ").data && form ≠ ("ДРУГОЕ").data && form ≠ ("ЮЛ").data &&
      form ≠ ("ИП").data && form ≠ ("ИП/ФЛ").data then form
  else ("?").data

/-- `normalize_and_classify(raw_name, inn)` — returns
`(core_name, legal_form, original_trimmed)`. -/
def normalize_and_classify (raw_name : Str) (inn : Option Str) :
    Str × Str × Str :=
  let original := pyStrip raw_name
  if original.isEmpty then (("?").data, ("ФЛ").data, [])
  else
    let form := detect_final_legal_form original inn
    let core0 := normalize_name_core original form
    let core :=
      match core0 with
      | some c => if c = ("?").data then fallbackName form else c
      | none => fallbackName form
    (core, form, original)

/-! ## utils.py -/

/-- Digit-string to natural number. -/
def digitsToNat (s : Str) : Nat := s.foldl (fun n c => n * 10 + (c.toNat - 48)) 0

/-- An exact decimal number `num / 10 ^ exp` (not normalised).  Python's
binary floats are modelled by the exact decimal values they are parsed
from; all amounts in this program are short decimal strings, for which the
two agree on every comparison the code performs. -/
structure DecQ where
  num : Int
  exp : Nat
deriving DecidableEq, Repr

/-- The rational value of a `DecQ`. -/
def DecQ.toRat (d : DecQ) : ℚ := (d.num : ℚ) / 10 ^ d.exp

/-- The comparison `x <= 0` on an exact decimal. -/
def DecQ.isNonpos (d : DecQ) : Bool := d.num ≤ 0

/-- The grammar accepted by Python's `float(...)` on the cleaned strings of
this program: optional sign, decimal digits with an optional point, and an
optional exponent (`inf`/`nan`/underscored literals are outside the model). -/
def parsePyFloat (s : Str) : Option DecQ :=
  let (sgn, s1) : Int × Str :=
    match s with
    | '+' :: t => (1, t)
    | '-' :: t => (-1, t)
    | _ => (1, s)
  let ip := s1.takeWhile (fun c => isDigitCh c)
  let r1 := s1.drop ip.length
  let (fp, r2) : Str × Str :=
    match r1 with
    | '.' :: t => (t.takeWhile (fun c => isDigitCh c),
        t.drop (t.takeWhile (fun c => isDigitCh c)).length)
    | _ => ([], r1)
  if ip.isEmpty && fp.isEmpty then none
  else
    let m : Int := sgn * (digitsToNat (ip ++ fp) : Int)
    match r2 with
    | [] => some ⟨m, fp.length⟩
    | e :: t =>
      if e = 'e' || e = 'E' then
        let (epos, t1) : Bool × Str :=
          match t with
          | '+' :: t2 => (true, t2)
          | '-' :: t2 => (false, t2)
          | _ => (true, t)
        let ed := t1.takeWhile (fun c => isDigitCh c)
        if ed.isEmpty || !(t1.drop ed.length).isEmpty then none
        else if epos then some ⟨m * 10 ^ digitsToNat ed, fp.length⟩
        else some ⟨m, fp.length + digitsToNat ed⟩
      else none

/-- `safe_float(value_str)` — whitespace removed, comma decimal separator
tolerated, `0.0` on failure. -/
def safe_float (v : Option Str) : DecQ :=
  match v with
  | none => ⟨0, 0⟩
  | some s =>
    if s.isEmpty then ⟨0, 0⟩
    else
      let cleaned := (s.filter (fun c => !pySpace c)).map
        (fun c => if c = ',' then '.' else c)
      match parsePyFloat cleaned with
      | some q => q
      | none => ⟨0, 0⟩

/-- A calendar date as produced by `datetime.strptime`. -/
structure PyDate where
  year : Nat
  month : Nat
  day : Nat
deriving DecidableEq, Repr

/-- Two-digit numeric field with a value range (strptime `%d`/`%m`,
two-digit branch). -/
def parse2digits (lo hi : Nat) : Str → Option (Nat × Str)
  | c1 :: c2 :: r =>
    if isDigitCh c1 && isDigitCh c2 then
      let v := (c1.toNat - 48) * 10 + (c2.toNat - 48)
      if lo ≤ v && v ≤ hi then some (v, r) else none
    else none
  | _ => none

/-- One-digit numeric field `[1-9]` (strptime `%d`/`%m`, short branch). -/
def parse1digit : Str → Option (Nat × Str)
  | c :: r => if isDigitCh c && c ≠ '0' then some (c.toNat - 48, r) else none
  | [] => none

/-- strptime `%Y`: exactly four digits. -/
def parseYear4 : Str → Option (Nat × Str)
  | a :: b :: c :: d :: r =>
    if isDigitCh a && isDigitCh b && isDigitCh c && isDigitCh d then
      some (digitsToNat [a, b, c, d], r)
    else none
  | _ => none

/-- A literal separator character. -/
def parseSep (sep : Char) : Str → Option Str
  | c :: r => if c = sep then some r else none
  | [] => none

/-- Gregorian leap year (as `datetime`). -/
def isLeap (y : Nat) : Bool := y % 4 = 0 && (y % 100 ≠ 0 || y % 400 = 0)

/-- Days in a month (as `datetime`). -/
def daysInMonth (y m : Nat) : Nat :=
  if m = 2 then (if isLeap y then 29 else 28)
  else if m = 4 || m = 6 || m = 9 || m = 11 then 30
  else 31

/-- The validation performed by the `datetime` constructor
(`MINYEAR = 1`; the day must exist in the month). -/
def validDate (y m d : Nat) : Bool :=
  1 ≤ y && 1 ≤ m && m ≤ 12 && 1 ≤ d && d ≤ daysInMonth y m

/-- `%d.%m.%Y`-shaped match (day first), with the two-digit field tried
before the one-digit field, as the strptime regex does. -/
def matchDMY (sep : Char) (s : Str) : Option (Nat × Nat × Nat) :=
  let finish := fun (d m : Nat) (r : Str) =>
    (parseYear4 r).bind (fun p => if p.2.isEmpty then some (p.1, m, d) else none)
  let monthThen := fun (d : Nat) (r : Str) =>
    (((parse2digits 1 12 r).bind (fun p => (parseSep sep p.2).bind (finish d p.1)))).orElse
      (fun _ => (parse1digit r).bind (fun p => (parseSep sep p.2).bind (finish d p.1)))
  (((parse2digits 1 31 s).bind (fun p => (parseSep sep p.2).bind (monthThen p.1)))).orElse
    (fun _ => (parse1digit s).bind (fun p => (parseSep sep p.2).bind (monthThen p.1)))

/-- `%Y.%m.%d`-shaped match (year first). -/
def matchYMD (sep : Char) (s : Str) : Option (Nat × Nat × Nat) :=
  let dayEnd := fun (y m : Nat) (r : Str) =>
    (((parse2digits 1 31 r).bind (fun p => if p.2.isEmpty then some (y, m, p.1) else none))).orElse
      (fun _ => (parse1digit r).bind (fun p => if p.2.isEmpty then some (y, m, p.1) else none))
  (parseYear4 s).bind (fun py =>
    (parseSep sep py.2).bind (fun r2 =>
      (((parse2digits 1 12 r2).bind (fun p => (parseSep sep p.2).bind (dayEnd py.1 p.1)))).orElse
        (fun _ => (parse1digit r2).bind (fun p => (parseSep sep p.2).bind (dayEnd py.1 p.1)))))

/-- One `datetime.strptime(date_str, fmt)` attempt: the regex-level match
followed by the `datetime` constructor's calendar validation. -/
def tryFormat (m : Str → Option (Nat × Nat × Nat)) (s : Str) : Option PyDate :=
  (m s).bind (fun t =>
    if validDate t.1 t.2.1 t.2.2 then some ⟨t.1, t.2.1, t.2.2⟩ else none)

/-- The format list of `parse_date`, in source order:
`%d.%m.%Y`, `%d-%m-%Y`, `%Y.%m.%d`, `%Y-%m-%d`. -/
def dateFormats : List (Str → Option (Nat × Nat × Nat)) :=
  [matchDMY '.', matchDMY '-', matchYMD '.', matchYMD '-']

/-- `parse_date(date_str)` — try the four formats in order, `None` when all
fail (or when the input is missing or empty). -/
def parse_date (v : Option Str) : Option PyDate :=
  match v with
  | none => none
  | some s =>
    if s.isEmpty then none
    else dateFormats.foldl (fun acc f => acc.orElse (fun _ => tryFormat f s)) none

/-- `get_doc_party_name`-style extraction given the `N` and `N1` fields. -/
def partyNameFrom (base alt : Option Str) : Str :=
  let name := orStr (base.getD []) (alt.getD [])
  if name.isEmpty then [] else pyStrip name

/-- Ordering key of `get_best_name`: `(-count, -len)` ascending,
i.e. higher count first, then longer string. -/
def cntBefore (a b : Str × Nat) : Bool :=
  b.2 < a.2 || (a.2 = b.2 && b.1.length < a.1.length)

/-- Stable insertion for `sorted(..., key=lambda item: (-count, -len))`. -/
def insertCnt (x : Str × Nat) : List (Str × Nat) → List (Str × Nat)
  | [] => [x]
  | y :: t => if cntBefore x y then x :: y :: t else y :: insertCnt x t

/-- Stable sort used by `get_best_name`. -/
def sortCnt (l : List (Str × Nat)) : List (Str × Nat) :=
  l.foldl (fun acc x => insertCnt x acc) []

/-- `get_best_name(names_counter, default_prefix)` — most frequent valid
raw name, ties broken by length. -/
def get_best_name (counter : List (Str × Nat)) (default_label : Str) :
    Option Str :=
  if counter.isEmpty then none
  else
    let valid := counter.filter (fun p =>
      !p.1.isEmpty && !containsSub default_label p.1 && p.1 ≠ ("?").data)
    if valid.isEmpty then none
    else (sortCnt valid).head?.map (fun p => p.1)

/-! ## processing.py — data model

Parsed headers and documents are modelled as records of optional strings,
one field per dictionary key the processing code reads; a missing key is
`none`.  Python dicts with string keys (`detected_orgs`, the global name
and tax-ID accumulators) are modelled as insertion-ordered association
lists, matching dict semantics.  Fields used only for logging
(`_filepath`, `_line`, `ТипДокумента`, `sources`) are omitted: the
processing logic never branches on them. -/

/-- File header (`header_info`): the keys read by `detect_organizations`. -/
structure HeaderInfo where
  mainAccount : Option Str := none  -- 'ОсновнойСчетФайла'
  inn : Option Str := none          -- 'ИНН'
  payer : Option Str := none        -- 'Плательщик'
  receiver : Option Str := none     -- 'Получатель'
deriving DecidableEq, Repr

/-- One document section: the keys read by the processing code. -/
structure Doc where
  number : Option Str := none          -- 'Номер'
  docDate : Option Str := none         -- 'Дата'
  dateDebited : Option Str := none     -- 'ДатаСписано'
  dateCredited : Option Str := none    -- 'ДатаПоступило'
  amount : Option Str := none          -- 'Сумма'
  payerAccount : Option Str := none    -- 'ПлательщикСчет'
  payerName : Option Str := none       -- 'Плательщик'
  payerName1 : Option Str := none      -- 'Плательщик1'
  payerInn : Option Str := none        -- 'ПлательщикИНН'
  receiverAccount : Option Str := none -- 'ПолучательСчет'
  receiverName : Option Str := none    -- 'Получатель'
  receiverName1 : Option Str := none   -- 'Получатель1'
  receiverInn : Option Str := none     -- 'ПолучательИНН'
  fileAccount : Option Str := none     -- 'СчетФайла'
  purpose : Option Str := none         -- 'НазначениеПлатежа'
deriving DecidableEq, Repr

/-- `get_doc_party_name(doc, party_type)` (`party_type` = payer?). -/
def get_doc_party_name (d : Doc) (payer : Bool) : Str :=
  if payer then partyNameFrom d.payerName d.payerName1
  else partyNameFrom d.receiverName d.receiverName1

/-- One detected organization: `{'name', 'normalized', 'legal_form', 'inn'}`. -/
structure OrgInfo where
  name : Str
  normalized : Str
  legal_form : Str
  inn : Str
deriving DecidableEq, Repr

/-- Insertion-ordered dictionary lookup. -/
def alGet {α : Type} (m : List (Str × α)) (k : Str) : Option α :=
  (m.find? (fun p => p.1 = k)).map (fun p => p.2)

/-- Insertion-ordered dictionary assignment (`d[k] = v`). -/
def alSet {α : Type} (m : List (Str × α)) (k : Str) (v : α) : List (Str × α) :=
  match m with
  | [] => [(k, v)]
  | p :: t => if p.1 = k then (k, v) :: t else p :: alSet t k v

/-- `k in d`. -/
def alHasKey {α : Type} (m : List (Str × α)) (k : Str) : Bool :=
  (alGet m k).isSome

/-- `Counter.update([x])` — increment, preserving insertion order. -/
def counterAdd (c : List (Str × Nat)) (x : Str) : List (Str × Nat) :=
  match c with
  | [] => [(x, 1)]
  | p :: t => if p.1 = x then (p.1, p.2 + 1) :: t else p :: counterAdd t x

/-- `set.add(x)` — modelled as an insertion-ordered deduplicated list
(the one place the source depends on set iteration order only does so for
singleton sets, where every order agrees). -/
def setAdd (s : List Str) (x : Str) : List Str :=
  if s.contains x then s else s ++ [x]

/-- `DEFAULT_ORG_NAME_PREFIX` from `config.py`. -/
def DEFAULT_ORG_NAME_PREFIX : Str := ("Организация счета").data

/-- The synthesised default identity for an account whose name could not
be resolved. -/
def defaultOrg (acc : Str) (inn : Str) : OrgInfo :=
  { name := DEFAULT_ORG_NAME_PREFIX ++ ' ' :: acc
    normalized := DEFAULT_ORG_NAME_PREFIX ++ ' ' :: acc
    legal_form := ("ДРУГОЕ").data
    inn := inn }

/-- State of Pass 1 of `detect_organizations`. -/
structure Pass1St where
  detected : List (Str × OrgInfo)
  needing : List (Str × OrgInfo)
  processed : List Str

/-- Pass 1 name/tax-ID resolution for one file's declared main account:
a payer-side document, then a receiver-side document, then the header's
declared payer or receiver name; `.ok` is the successfully normalised
identity (stored in `detected_orgs`), `.error` the default identity
(stored in `needing_names`). -/
def pass1Resolve (h : HeaderInfo) (documents : List Doc) (fa : Str) :
    Except OrgInfo OrgInfo :=
  let payerDoc := documents.find? (fun d =>
    d.payerAccount = some fa && !(get_doc_party_name d true).isEmpty)
  let innP : Option Str :=
    match payerDoc with
    | some d => if falsyOpt h.inn then d.payerInn else h.inn
    | none => h.inn
  let nameP : Str :=
    match payerDoc with
    | some d => get_doc_party_name d true
    | none => []
  let step2 : Str × Option Str :=
    if nameP.isEmpty then
      match documents.find? (fun d =>
        d.receiverAccount = some fa && !(get_doc_party_name d false).isEmpty) with
      | some d => (get_doc_party_name d false,
          if falsyOpt innP then d.receiverInn else innP)
      | none => ([], innP)
    else (nameP, innP)
  let nameRaw : Str :=
    if step2.1.isEmpty then (orOptStr h.payer h.receiver).getD [] else step2.1
  let orgInn := step2.2
  if !nameRaw.isEmpty then
    let r := normalize_and_classify nameRaw orgInn
    if !r.1.isEmpty && r.1 ≠ ("?").data then
      .ok ⟨nameRaw, r.1, r.2.1, orgInn.getD []⟩
    else .error (defaultOrg fa (orgInn.getD []))
  else .error (defaultOrg fa (orgInn.getD []))

/-- Pass 1 of `detect_organizations` for one parsed file: find a name for
the file's declared main account inside its own file. -/
def pass1Step (st : Pass1St) (file : Option HeaderInfo × List Doc) : Pass1St :=
  match file.1 with
  | none => st
  | some h =>
    if falsyOpt h.mainAccount then st
    else
      let fa := h.mainAccount.getD []
      if st.processed.contains fa then st
      else
        match pass1Resolve h file.2 fa with
        | .ok v =>
          { st with
            detected := alSet st.detected fa v
            processed := st.processed ++ [fa] }
        | .error v =>
          { st with
            needing := alSet st.needing fa v
            processed := st.processed ++ [fa] }

/-- Add a raw name observation for an account (`names_found_global`). -/
def nfgAdd (m : List (Str × List (Str × Nat))) (k x : Str) :
    List (Str × List (Str × Nat)) :=
  match alGet m k with
  | some c => alSet m k (counterAdd c x)
  | none => m ++ [(k, counterAdd [] x)]

/-- Add a tax-ID observation for an account (`inns_found_global`). -/
def ifgAdd (m : List (Str × List Str)) (k x : Str) : List (Str × List Str) :=
  match alGet m k with
  | some l => alSet m k (setAdd l x)
  | none => m ++ [(k, [x])]

/-- Pass 2 accumulation over all documents: raw names and tax IDs seen on
either side of any document whose account still needs a name. -/
def pass2Collect (needingKeys : List Str) (docs : List Doc) :
    List (Str × List (Str × Nat)) × List (Str × List Str) :=
  docs.foldl (fun acc d =>
    let pName := get_doc_party_name d true
    let rName := get_doc_party_name d false
    let acc1 :=
      match d.payerAccount with
      | some a =>
        if needingKeys.contains a then
          (if !pName.isEmpty then nfgAdd acc.1 a pName else acc.1,
           if !falsyOpt d.payerInn then ifgAdd acc.2 a (d.payerInn.getD []) else acc.2)
        else acc
      | none => acc
    match d.receiverAccount with
    | some a =>
      if needingKeys.contains a then
        (if !rName.isEmpty then nfgAdd acc1.1 a rName else acc1.1,
         if !falsyOpt d.receiverInn then ifgAdd acc1.2 a (d.receiverInn.getD []) else acc1.2)
      else acc1
    | none => acc1) ([], [])

/-- Pass 2 tax-ID resolution for one account:
`list(acc_inns)[0] if acc_inns and len(acc_inns) == 1 else default_data.get('inn')`.
The observed tax IDs are used only when exactly one distinct value exists;
otherwise the default identity's tax ID (recorded from the file header in
Pass 1) is used. -/
def pass2InnFor (innsG : List (Str × List Str)) (acc : Str) (dfltInn : Str) :
    Str :=
  match alGet innsG acc with
  | some l => if l.length = 1 then l.headD [] else dfltInn
  | none => dfltInn

/-- Pass 2 resolution of the identity stored for one still-unnamed
account: the best observed raw name, normalised with the resolved tax ID,
falling back to the default identity from Pass 1. -/
def pass2Resolve (namesG : List (Str × List (Str × Nat)))
    (innsG : List (Str × List Str)) (acc : Str) (dflt : OrgInfo) : OrgInfo :=
  let bestRaw : Option Str :=
    match alGet namesG acc with
    | some c => if c.isEmpty then none else get_best_name c DEFAULT_ORG_NAME_PREFIX
    | none => none
  let innFor : Str := pass2InnFor innsG acc dflt.inn
  match bestRaw with
  | some best =>
    if !best.isEmpty && !containsSub DEFAULT_ORG_NAME_PREFIX best then
      let r := normalize_and_classify best (some innFor)
      if !r.1.isEmpty && r.1 ≠ ("?").data then ⟨best, r.1, r.2.1, innFor⟩
      else dflt
    else dflt
  | none => dflt

/-- Pass 2 resolution for one still-unnamed account (the
`detected_orgs[acc] = ...` assignments of the source's second loop). -/
def pass2Step (namesG : List (Str × List (Str × Nat)))
    (innsG : List (Str × List Str)) (st : List (Str × OrgInfo))
    (entry : Str × OrgInfo) : List (Str × OrgInfo) :=
  if alHasKey st entry.1 then st
  else alSet st entry.1 (pass2Resolve namesG innsG entry.1 entry.2)

/-- `detect_organizations(parsed_files_data)` — the two-pass
account-to-identity index. -/
def detect_organizations (parsed : List (Option HeaderInfo × List Doc)) :
    List (Str × OrgInfo) :=
  let allDocs := parsed.flatMap (fun f => f.2)
  let st := parsed.foldl pass1Step ⟨[], [], []⟩
  if st.needing.isEmpty then st.detected
  else
    let needingKeys := st.needing.map (fun p => p.1)
    let gl := pass2Collect needingKeys allDocs
    st.needing.foldl (pass2Step gl.1 gl.2) st.detected

/-! ## processing.py — per-document classification -/

/-- The skip reasons tallied by `process_documents`. -/
inductive SkipReason where
  | noOurOrg
  | internalTransfer
  | mismatch
  | detailsMissing
  | noCpName
  | invalidData
deriving DecidableEq, Repr

/-- One classified transaction (`transaction_data`). -/
structure Txn where
  our_org_normalized : Str
  our_org_original : Str
  our_account : Str
  type : Str
  cp_id : Str
  cp_name_raw : Str
  cp_name_normalized : Str
  cp_display_name_hint : Option Str
  cp_legal_form : Str
  cp_inn : Str
  cp_account : Str
  date : Str
  year : Nat
  amount : DecQ
  doc_number : Str
  purpose : Str
deriving DecidableEq, Repr

/-- Decimal rendering of a natural number. -/
def natToStr (n : Nat) : Str := Nat.toDigits 10 n

/-- Two-digit zero-padded field. -/
def pad2 (n : Nat) : Str := if n < 10 then '0' :: natToStr n else natToStr n

/-- `date_oper.strftime('%Y-%m-%d')`. -/
def fmtYMD (d : PyDate) : Str :=
  natToStr d.year ++ '-' :: (pad2 d.month ++ '-' :: pad2 d.day)

/-- `acc in our_accounts` where `our_accounts = set(our_orgs_map.keys())`. -/
def isOurs (m : List (Str × OrgInfo)) (acc : Option Str) : Bool :=
  match acc with
  | some a => alHasKey m a
  | none => false

/-- The counterparty identity key (`cp_id`), from the tail of the
per-document loop of `process_documents`. -/
def mkCpId (innClean norm rawOrig accClean : Str) : Str :=
  if !innClean.isEmpty && innClean ≠ ("0").data then ("INN:").data ++ innClean
  else
    let namePart :=
      if !norm.isEmpty && norm ≠ ("?").data then pyUpper norm
      else if !rawOrig.isEmpty && rawOrig ≠ ("?").data then pyUpper rawOrig
      else ("БЕЗ_ИМЕНИ").data
    let accPart := if !accClean.isEmpty then accClean else ("БЕЗ_СЧЕТА").data
    ("NAME_ACC:").data ++ namePart ++ '|' :: accPart

/-- The body of the `process_documents` loop for one document: either a
classified transaction or the skip reason the document is tallied under. -/
def processDoc (m : List (Str × OrgInfo)) (d : Doc) : Except SkipReason Txn :=
  let pAcc := d.payerAccount
  let rAcc := d.receiverAccount
  let fAcc := d.fileAccount
  let pName := get_doc_party_name d true
  let rName := get_doc_party_name d false
  let isP := isOurs m pAcc
  let isR := isOurs m rAcc
  if !(isP || isR) then .error .noOurOrg
  else if isP && isR then .error .internalTransfer
  else
    let branch : Option (Str × Str × Str × Str × Option Str) :=
      if pAcc = fAcc && isP then
        some ((("expense").data, pAcc.getD [], rName, d.receiverInn.getD [], rAcc))
      else if rAcc = fAcc && isR then
        some ((("income").data, rAcc.getD [], pName, d.payerInn.getD [], pAcc))
      else if isP && !isR then
        some ((("expense").data, pAcc.getD [], rName, d.receiverInn.getD [], rAcc))
      else if isR && !isP then
        some ((("income").data, rAcc.getD [], pName, d.payerInn.getD [], pAcc))
      else none
    match branch with
    | none => .error .mismatch
    | some (ty, ourAcc, cpRaw, cpInn, cpAcc) =>
      match alGet m ourAcc with
      | none => .error .detailsMissing
      | some ourDetails =>
        if cpRaw.isEmpty || cpRaw = ("?").data then .error .noCpName
        else
          let dateStr :=
            if ty = ("expense").data then orOptStr d.dateDebited d.docDate
            else orOptStr d.dateCredited d.docDate
          let amount := safe_float d.amount
          match parse_date dateStr with
          | none => .error .invalidData
          | some dt =>
            if amount.isNonpos then .error .invalidData
            else
              let cpInnClean := if cpInn.isEmpty then [] else pyStrip cpInn
              let cpAccClean :=
                match cpAcc with
                | some a => if a.isEmpty then [] else pyStrip a
                | none => []
              let r := normalize_and_classify cpRaw (some cpInnClean)
              let cpNorm := r.1
              let cpForm := r.2.1
              let cpOrig := r.2.2
              let hint : Option Str :=
                if !cpNorm.isEmpty && cpNorm ≠ ("?").data &&
                    (cpForm = ("ИП").data || cpForm = ("ФЛ").data) then
                  some (format_fio_display cpNorm)
                else none
              .ok
                { our_org_normalized := ourDetails.normalized
                  our_org_original := ourDetails.name
                  our_account := ourAcc
                  type := ty
                  cp_id := mkCpId cpInnClean cpNorm cpOrig cpAccClean
                  cp_name_raw := orStr cpOrig (("?").data)
                  cp_name_normalized := orStr cpNorm (("?").data)
                  cp_display_name_hint := hint
                  cp_legal_form := cpForm
                  cp_inn := cpInnClean
                  cp_account := cpAccClean
                  date := fmtYMD dt
                  year := dt.year
                  amount := amount
                  doc_number := d.number.getD []
                  purpose := d.purpose.getD [] }

/-- Decidable equality of classification results. -/
instance {e a : Type} [DecidableEq e] [DecidableEq a] :
    DecidableEq (Except e a) := fun x y =>
  match x, y with
  | .error e1, .error e2 =>
    if h : e1 = e2 then isTrue (by rw [h])
    else isFalse (by intro hx; injection hx; exact h (by assumption))
  | .ok x1, .ok x2 =>
    if h : x1 = x2 then isTrue (by rw [h])
    else isFalse (by intro hx; injection hx; exact h (by assumption))
  | .error _, .ok _ => isFalse (by intro hx; injection hx)
  | .ok _, .error _ => isFalse (by intro hx; injection hx)

/-- `process_documents(all_documents, our_orgs_map)` — every qualifying
document's classified transaction, in document order. -/
def process_documents (allDocs : List Doc) (m : List (Str × OrgInfo)) :
    List Txn :=
  allDocs.filterMap (fun d => (processDoc m d).toOption)

/-- The declared main account of one parsed file, when its header carries
a non-empty `'ОсновнойСчетФайла'` value. -/
def fileMain (f : Option HeaderInfo × List Doc) : Option Str :=
  match f.1 with
  | none => none
  | some h => if falsyOpt h.mainAccount then none else some (h.mainAccount.getD [])

/-- The list of declared main accounts of a corpus. -/
def mainAccountsOf (parsed : List (Option HeaderInfo × List Doc)) : List Str :=
  parsed.filterMap fileMain

/-! ## Concrete corpora used by the claims -/

/-- The end-to-end scenario document of §8 of the spec. -/
def c2doc : Doc :=
  { payerAccount := some ("40702810000000012345").data
    receiverName := some ("Иванов И.И.").data
    receiverAccount := some ("40817810000000098765").data
    amount := some ("1500,50").data
    docDate := some ("15.03.2024").data
    fileAccount := some ("40702810000000012345").data }

/-- The end-to-end scenario header. -/
def c2header : HeaderInfo :=
  { mainAccount := some ("40702810000000012345").data
    payer := some ("ООО РОМАШКА").data }

/-- The end-to-end scenario corpus: one file, one document. -/
def c2corpus : List (Option HeaderInfo × List Doc) := [(some c2header, [c2doc])]

/-- Corpus for C1: account `"B2"` appears only as a document's receiver
account, never as a file's main account. -/
def c1corpus : List (Option HeaderInfo × List Doc) :=
  [(some { mainAccount := some ("A1").data, payer := some ("ООО РОМАШКА").data },
    [{ payerAccount := some ("A1").data
       receiverAccount := some ("B2").data
       receiverName := some ("ООО ЛЮТИК").data
       fileAccount := some ("A1").data }])]

/-- Corpus for C3: account `"A1"`'s own file has no usable name and
declares header tax ID `"111"`; two documents in another file name it
`"ООО РОМАШКА"` with two distinct per-transaction tax IDs `"222"`, `"333"`. -/
def c3corpus : List (Option HeaderInfo × List Doc) :=
  [(some { mainAccount := some ("A1").data, inn := some ("111").data }, []),
   (some { mainAccount := some ("C9").data },
    [{ payerAccount := some ("A1").data
       payerName := some ("ООО РОМАШКА").data
       payerInn := some ("222").data
       receiverAccount := some ("B2").data
       fileAccount := some ("C9").data },
     { payerAccount := some ("A1").data
       payerName := some ("ООО РОМАШКА").data
       payerInn := some ("333").data
       receiverAccount := some ("B2").data
       fileAccount := some ("C9").data }])]

/-- The transaction the pipeline actually produces on the §8 end-to-end
scenario. -/
def c2txn : Txn :=
  { our_org_normalized := ("РОМАШКА").data
    our_org_original := ("ООО РОМАШКА").data
    our_account := ("40702810000000012345").data
    type := ("expense").data
    cp_id := ("NAME_ACC:ИВАНОВ И.И.|40817810000000098765").data
    cp_name_raw := ("Иванов И.И.").data
    cp_name_normalized := ("ИВАНОВ И.И.").data
    cp_display_name_hint := none
    cp_legal_form := ("ДРУГОЕ").data
    cp_inn := []
    cp_account := ("40817810000000098765").data
    date := ("2024-03-15").data
    year := 2024
    amount := ⟨150050, 2⟩
    doc_number := []
    purpose := [] }

/-- The §8 document with its date written in an unsupported format. -/
def c10doc : Doc := { c2doc with docDate := some ("15/03/2024").data }

/-- A two-organization map used to exercise the skip branches. -/
def twoOrgMap : List (Str × OrgInfo) :=
  [(("A1").data, defaultOrg (("A1").data) []),
   (("B2").data, defaultOrg (("B2").data) [])]

/-- A document between the two accounts of `twoOrgMap`. -/
def bothOursDoc : Doc :=
  { payerAccount := some (("A1").data)
    receiverAccount := some (("B2").data)
    fileAccount := some (("A1").data)
    receiverName := some (("ООО ЛЮТИК").data)
    amount := some (("100").data)
    docDate := some (("15.03.2024").data) }

/-- A document with a negative amount but valid name and date. -/
def negAmountDoc : Doc :=
  { payerAccount := some (("A1").data)
    receiverAccount := some (("C3").data)
    fileAccount := some (("A1").data)
    receiverName := some (("ООО ЛЮТИК").data)
    amount := some (("-5").data)
    docDate := some (("15.03.2024").data) }

/-! ## Lemmas about the best-match selection loop -/

theorem bestStep_snd (st : Option Str × Nat) (m : Str × Nat) :
    (bestStep st m).2 = max st.2 m.2 := by
  unfold bestStep
  by_cases h1 : st.2 < m.2
  · simp [h1, Nat.max_eq_right (Nat.le_of_lt h1)]
  · have hm : max st.2 m.2 = st.2 := Nat.max_eq_left (Nat.le_of_not_lt h1)
    by_cases h2 : m.2 = st.2 ∧ m.1 = ("ИП").data ∧ st.1 ≠ some (("ИП").data)
    · simp [h1, h2, hm]
    · simp [h1, h2, hm]

theorem foldl_max_init (ms : List (Str × Nat)) :
    ∀ init : Nat, init ≤ ms.foldl (fun a m => max a m.2) init := by
  induction ms with
  | nil => simp
  | cons m t ih =>
    intro init
    exact le_trans (Nat.le_max_left _ _) (ih _)

theorem foldl_max_mem (ms : List (Str × Nat)) :
    ∀ (init : Nat) (m : Str × Nat), m ∈ ms →
      m.2 ≤ ms.foldl (fun a m => max a m.2) init := by
  induction ms with
  | nil => intro _ m hm; cases hm
  | cons x t ih =>
    intro init m hm
    rcases List.mem_cons.mp hm with rfl | hm2
    · exact le_trans (Nat.le_max_right _ _) (foldl_max_init t _)
    · exact ih _ m hm2

theorem bestFold_snd (ms : List (Str × Nat)) :
    ∀ st, (ms.foldl bestStep st).2 = ms.foldl (fun a m => max a m.2) st.2 := by
  induction ms with
  | nil => intro st; rfl
  | cons m t ih =>
    intro st
    simp only [List.foldl_cons, ih, bestStep_snd]

theorem bestStep_cases (st : Option Str × Nat) (m : Str × Nat) :
    bestStep st m = (some m.1, m.2) ∨
      (bestStep st m = (some (("ИП").data), st.2) ∧ m = ((("ИП").data : Str), st.2)) ∨
      bestStep st m = st := by
  unfold bestStep
  by_cases c1 : st.2 < m.2
  · left; simp [c1]
  · by_cases c2 : m.2 = st.2 ∧ m.1 = ("ИП").data ∧ st.1 ≠ some (("ИП").data)
    · right; left
      refine ⟨by simp [c1, c2], ?_⟩
      obtain ⟨e1, e2, _⟩ := c2
      cases m
      simp_all
    · right; right; simp [c1, c2]

theorem bestFold_mem (ms : List (Str × Nat)) :
    ∀ st f, (ms.foldl bestStep st).1 = some f →
      (st.1 = some f ∧ (ms.foldl bestStep st).2 = st.2) ∨
        (f, (ms.foldl bestStep st).2) ∈ ms := by
  induction ms with
  | nil => intro st f h; exact Or.inl ⟨h, rfl⟩
  | cons m t ih =>
    intro st f h
    simp only [List.foldl_cons] at h ⊢
    rcases ih (bestStep st m) f h with ⟨h1, h2⟩ | h1
    · rcases bestStep_cases st m with hc | ⟨hc, hm⟩ | hc
      · rw [hc] at h1 h2 ⊢
        simp only [Option.some.injEq] at h1
        subst h1
        right
        rw [h2]
        exact List.mem_cons_self _ _
      · rw [hc] at h1 h2 ⊢
        simp only [Option.some.injEq] at h1
        subst h1
        right
        rw [h2, hm]
        exact List.mem_cons_self _ _
      · rw [hc] at h1 h2 ⊢
        exact Or.inl ⟨h1, h2⟩
    · exact Or.inr (List.mem_cons_of_mem _ h1)

theorem bestFold_ip_keep (ms : List (Str × Nat)) :
    ∀ st, st.1 = some (("ИП").data) → (∀ m ∈ ms, m.2 ≤ st.2) →
      ms.foldl bestStep st = st := by
  induction ms with
  | nil => intro st _ _; rfl
  | cons m t ih =>
    intro st h1 h2
    simp only [List.foldl_cons]
    have hle : m.2 ≤ st.2 := h2 m (List.mem_cons_self _ _)
    have hstep : bestStep st m = st := by
      unfold bestStep
      rw [if_neg (Nat.not_lt.mpr hle)]
      by_cases c2 : m.2 = st.2 ∧ m.1 = ("ИП").data ∧ st.1 ≠ some (("ИП").data)
      · exact absurd h1 c2.2.2
      · rw [if_neg c2]
    rw [hstep]
    exact ih st h1 (fun x hx => h2 x (List.mem_cons_of_mem _ hx))

theorem bestStep_ip_fst (st : Option Str × Nat) (M : Nat) (hle : st.2 ≤ M) :
    (bestStep st ((("ИП").data : Str), M)).1 = some (("ИП").data) := by
  unfold bestStep
  split
  · rfl
  · next hc1 =>
      split
      · rfl
      · next hc2 =>
          have he : st.2 = M := Nat.le_antisymm hle (Nat.le_of_not_lt hc1)
          by_contra hne
          exact hc2 ⟨he.symm, rfl, hne⟩

theorem bestFold_ip (ms : List (Str × Nat)) :
    ∀ st M, ((("ИП").data : Str), M) ∈ ms → st.2 ≤ M →
      (∀ m ∈ ms, m.2 ≤ M) →
      (ms.foldl bestStep st).1 = some (("ИП").data) := by
  induction ms with
  | nil => intro st M h; cases h
  | cons m t ih =>
    intro st M hmem hle hall
    simp only [List.foldl_cons]
    by_cases hm : m = ((("ИП").data : Str), M)
    · subst hm
      have hs2 : (bestStep st ((("ИП").data : Str), M)).2 = M := by
        rw [bestStep_snd]
        exact Nat.max_eq_right hle
      have hs1 := bestStep_ip_fst st M hle
      have := bestFold_ip_keep t (bestStep st ((("ИП").data : Str), M))
        hs1 (fun x hx => by rw [hs2]; exact hall x (List.mem_cons_of_mem _ hx))
      rw [this]
      exact hs1
    · have hmem2 : ((("ИП").data : Str), M) ∈ t := by
        rcases List.mem_cons.mp hmem with h | h
        · exact absurd h.symm hm
        · exact h
      have hle2 : (bestStep st m).2 ≤ M := by
        rw [bestStep_snd]
        exact Nat.max_le.mpr ⟨hle, hall m (List.mem_cons_self _ _)⟩
      exact ih (bestStep st m) M hmem2 hle2
        (fun x hx => hall x (List.mem_cons_of_mem _ hx))

theorem bestMatchForm_mem (ms : List (Str × Nat)) (f : Str)
    (h : (bestMatchForm ms).1 = some f) :
    (f, (bestMatchForm ms).2) ∈ ms := by
  rcases bestFold_mem ms (none, 0) f h with ⟨h1, _⟩ | h1
  · cases h1
  · exact h1

theorem bestMatchForm_max (ms : List (Str × Nat)) :
    ∀ m ∈ ms, m.2 ≤ (bestMatchForm ms).2 := by
  intro m hm
  unfold bestMatchForm
  rw [bestFold_snd]
  exact foldl_max_mem ms 0 m hm

theorem bestMatchForm_ip (ms : List (Str × Nat))
    (h : ((("ИП").data : Str), maxSpan ms) ∈ ms) :
    (bestMatchForm ms).1 = some (("ИП").data) := by
  exact bestFold_ip ms (none, 0) (maxSpan ms) h (Nat.zero_le _)
    (fun m hm => foldl_max_mem ms 0 m hm)

/-! ## Lemmas about `detect_final_legal_form` -/

theorem lfml_nil : legalFormMatchList [] = [] := by decide

theorem lfml_fst_mem (u f : Str) (L : Nat)
    (h : (f, L) ∈ legalFormMatchList u) :
    ∃ p ∈ LEGAL_FORMS_KEYWORDS, p.1 = f := by
  unfold legalFormMatchList at h
  simp only [List.mem_flatMap, List.mem_map] at h
  obtain ⟨fk, hfk, kw, _, t, _, heq⟩ := h
  exact ⟨fk, hfk, congrArg Prod.fst heq⟩

theorem keys_ne_nil : ∀ p ∈ LEGAL_FORMS_KEYWORDS, p.1 ≠ [] := by decide

theorem detect_keyword_eq (name : Str) (inn : Option Str) (f : Str)
    (h : (bestMatchForm (legalFormMatchList (pyStrip (pyUpper name)))).1 = some f) :
    detect_final_legal_form name inn = f := by
  unfold detect_final_legal_form
  by_cases he : name.isEmpty
  · exfalso
    have hn : name = [] := by
      cases name
      · rfl
      · simp [List.isEmpty] at he
    subst hn
    rw [show pyStrip (pyUpper []) = [] from rfl, lfml_nil] at h
    cases h
  · simp only [he, Bool.false_eq_true, if_false]
    by_cases hu : (pyStrip (pyUpper name)).isEmpty
    · exfalso
      have hn : pyStrip (pyUpper name) = [] := by
        cases hx : pyStrip (pyUpper name)
        · rfl
        · rw [hx] at hu; simp [List.isEmpty] at hu
      rw [hn, lfml_nil] at h
      cases h
    · simp only [hu, Bool.false_eq_true, if_false, h]

theorem innFormOf_some (inn : Option Str) (r : Str)
    (h : innFormOf inn = some r) :
    r = ("ФЛ").data ∨ r = ("ЮЛ").data := by
  cases inn with
  | none => simp [innFormOf] at h
  | some i =>
    simp only [innFormOf] at h
    split at h
    · cases h
    · split at h
      · injection h with h2
        exact Or.inl h2.symm
      · split at h
        · injection h with h2
          exact Or.inr h2.symm
        · cases h

theorem fioFormOf_ne_nil (raw : Str) : fioFormOf raw ≠ [] := by
  unfold fioFormOf
  split
  · decide
  · decide

theorem detect_ne_nil (raw : Str) (inn : Option Str) :
    detect_final_legal_form raw inn ≠ [] := by
  unfold detect_final_legal_form
  by_cases he : raw.isEmpty
  · simp only [he, if_true]
    decide
  · simp only [he, Bool.false_eq_true, if_false]
    by_cases hu : (pyStrip (pyUpper raw)).isEmpty
    · simp only [hu, if_true]
      decide
    · simp only [hu, Bool.false_eq_true, if_false]
      cases hbest : (bestMatchForm (legalFormMatchList (pyStrip (pyUpper raw)))).1 with
      | some f =>
        obtain ⟨p, hp, hpf⟩ := lfml_fst_mem _ f _ (bestMatchForm_mem _ f hbest)
        show f ≠ []
        rw [← hpf]
        exact keys_ne_nil p hp
      | none =>
        cases hio : innFormOf inn with
        | some r =>
          show r ≠ []
          rcases innFormOf_some inn r hio with h | h <;> subst h <;> decide
        | none =>
          show fioFormOf raw ≠ []
          exact fioFormOf_ne_nil raw

/-! ## Lemmas about `normalize_name_core` and `normalize_and_classify` -/

theorem coreGate_ne_nil (f : Str) (h : coreGate f = true) : f ≠ [] := by
  intro he
  subst he
  simp [coreGate, List.isEmpty] at h

theorem coreCase_ne_nil (form f : Str) (h : f ≠ []) : coreCase form f ≠ [] := by
  unfold coreCase
  split
  · exact h
  · intro hx
    exact h (List.map_eq_nil_iff.mp hx)

theorem core_some_ne_nil (raw form s : Str)
    (h : normalize_name_core raw form = some s) : s ≠ [] := by
  unfold normalize_name_core at h
  cases hc : coreClean raw form with
  | none => rw [hc] at h; cases h
  | some f =>
    rw [hc] at h
    by_cases hg : coreGate f
    · simp only [hg, if_true] at h
      injection h with h2
      subst h2
      exact coreCase_ne_nil form f (coreGate_ne_nil f hg)
    · simp only [Bool.not_eq_true] at hg
      simp only [hg, Bool.false_eq_true, if_false] at h
      cases h

/-! ## Lemmas about association lists -/

theorem alHasKey_cons {α : Type} (p : Str × α) (t : List (Str × α)) (a : Str) :
    alHasKey (p :: t) a = (decide (p.1 = a) || alHasKey t a) := by
  by_cases h : p.1 = a
  · simp [alHasKey, alGet, List.find?_cons_of_pos, h]
  · simp [alHasKey, alGet, List.find?_cons_of_neg, h]

theorem alHasKey_alSet {α : Type} (m : List (Str × α)) (k a : Str) (v : α) :
    alHasKey (alSet m k v) a = (decide (a = k) || alHasKey m a) := by
  induction m with
  | nil =>
    by_cases h : a = k
    · simp [alSet, alHasKey_cons, h]
    · simp [alSet, alHasKey_cons, h, alHasKey, alGet]
      intro hx
      exact h hx.symm
  | cons p t ih =>
    unfold alSet
    by_cases hpk : p.1 = k
    · rw [if_pos hpk, alHasKey_cons, alHasKey_cons, hpk]
      by_cases hak : a = k
      · simp [hak]
      · have : ¬ (k = a) := fun hx => hak hx.symm
        simp [hak, this]
    · rw [if_neg hpk, alHasKey_cons, alHasKey_cons, ih]
      cases hd : decide (a = k) <;> cases he : decide (p.1 = a) <;> simp

/-! ## Key-set lemmas for `detect_organizations` -/

theorem alHasKey_nil {α : Type} (a : Str) :
    alHasKey ([] : List (Str × α)) a = false := rfl

theorem alHasKey_any {α : Type} (m : List (Str × α)) (a : Str) :
    alHasKey m a = m.any (fun p => decide (p.1 = a)) := by
  induction m with
  | nil => rfl
  | cons p t ih => rw [alHasKey_cons, List.any_cons, ih]

theorem contains_append_singleton (l : List Str) (x b : Str) :
    (l ++ [x]).contains b = (l.contains b || decide (b = x)) := by
  by_cases h : b = x
  · subst h
    simp
  · simp [h]

theorem pass1Step_keys (st : Pass1St) (file : Option HeaderInfo × List Doc)
    (hinv : ∀ b, st.processed.contains b =
      (alHasKey st.detected b || alHasKey st.needing b)) :
    (∀ b, (pass1Step st file).processed.contains b =
      (alHasKey (pass1Step st file).detected b ||
        alHasKey (pass1Step st file).needing b)) ∧
    (∀ a, (alHasKey (pass1Step st file).detected a ||
        alHasKey (pass1Step st file).needing a) =
      (alHasKey st.detected a || alHasKey st.needing a ||
        decide (fileMain file = some a))) := by
  unfold pass1Step fileMain
  cases hf : file.1 with
  | none => exact ⟨hinv, fun a => by simp⟩
  | some h =>
    by_cases hfm : falsyOpt h.mainAccount
    · simp only [hfm, if_true]
      exact ⟨hinv, fun a => by simp⟩
    · simp only [hfm, Bool.false_eq_true, if_false]
      by_cases hmem : st.processed.contains (h.mainAccount.getD [])
      · simp only [hmem, if_true]
        refine ⟨hinv, fun a => ?_⟩
        by_cases ha : h.mainAccount.getD [] = a
        · have habs : (alHasKey st.detected a || alHasKey st.needing a) = true := by
            rw [← hinv a, ← ha]
            exact hmem
          simp [ha, habs]
        · simp [ha]
      · simp only [hmem, Bool.false_eq_true, if_false]
        cases hr : pass1Resolve h file.2 (h.mainAccount.getD []) with
        | ok v =>
          constructor
          · intro b
            simp only [contains_append_singleton, hinv b, alHasKey_alSet]
            cases hd : decide (b = h.mainAccount.getD []) <;>
              cases h1 : alHasKey st.detected b <;>
              cases h2 : alHasKey st.needing b <;> simp
          · intro a
            simp only [alHasKey_alSet]
            by_cases ha : h.mainAccount.getD [] = a
            · simp [ha]
            · have ha2 : ¬ (a = h.mainAccount.getD []) := fun hx => ha hx.symm
              simp [ha, ha2]
        | error v =>
          constructor
          · intro b
            simp only [contains_append_singleton, hinv b, alHasKey_alSet]
            cases hd : decide (b = h.mainAccount.getD []) <;>
              cases h1 : alHasKey st.detected b <;>
              cases h2 : alHasKey st.needing b <;> simp
          · intro a
            simp only [alHasKey_alSet]
            by_cases ha : h.mainAccount.getD [] = a
            · simp [ha]
            · have ha2 : ¬ (a = h.mainAccount.getD []) := fun hx => ha hx.symm
              simp [ha, ha2]

theorem pass1_fold (files : List (Option HeaderInfo × List Doc)) :
    ∀ st : Pass1St,
      (∀ b, st.processed.contains b =
        (alHasKey st.detected b || alHasKey st.needing b)) →
      (∀ b, (files.foldl pass1Step st).processed.contains b =
        (alHasKey (files.foldl pass1Step st).detected b ||
          alHasKey (files.foldl pass1Step st).needing b)) ∧
      (∀ a, (alHasKey (files.foldl pass1Step st).detected a ||
          alHasKey (files.foldl pass1Step st).needing a) =
        (alHasKey st.detected a || alHasKey st.needing a ||
          (files.filterMap fileMain).contains a)) := by
  induction files with
  | nil =>
    intro st h
    exact ⟨h, fun a => by simp⟩
  | cons f rest ih =>
    intro st h
    obtain ⟨h1, h2⟩ := pass1Step_keys st f h
    obtain ⟨ih1, ih2⟩ := ih (pass1Step st f) h1
    refine ⟨ih1, fun a => ?_⟩
    simp only [List.foldl_cons] at *
    rw [ih2 a, h2 a, List.filterMap_cons]
    cases hf : fileMain f with
    | none => simp
    | some m =>
      by_cases ha : a = m
      · subst ha
        simp
      · have hb : (a == m) = false := beq_eq_false_iff_ne.mpr ha
        have hm2 : ¬ (m = a) := fun hx => ha hx.symm
        simp [hb, hm2]

theorem pass2Step_hasKey (nG : List (Str × List (Str × Nat)))
    (iG : List (Str × List Str)) (st : List (Str × OrgInfo))
    (e : Str × OrgInfo) (a : Str) :
    alHasKey (pass2Step nG iG st e) a = (decide (a = e.1) || alHasKey st a) := by
  unfold pass2Step
  by_cases hk : alHasKey st e.1
  · simp only [hk, if_true]
    by_cases ha : a = e.1
    · subst ha
      simp [hk]
    · simp [ha]
  · simp only [hk, Bool.false_eq_true, if_false, alHasKey_alSet]

theorem pass2_fold_keys (entries : List (Str × OrgInfo)) :
    ∀ (nG : List (Str × List (Str × Nat))) (iG : List (Str × List Str))
      (st : List (Str × OrgInfo)) (a : Str),
      alHasKey (entries.foldl (pass2Step nG iG) st) a =
        (alHasKey st a || entries.any (fun e => decide (e.1 = a))) := by
  induction entries with
  | nil => intro nG iG st a; simp
  | cons e rest ih =>
    intro nG iG st a
    simp only [List.foldl_cons, List.any_cons]
    rw [ih, pass2Step_hasKey]
    by_cases ha : a = e.1
    · subst ha
      simp
    · have ha2 : ¬ (e.1 = a) := fun hx => ha hx.symm
      simp [ha, ha2]

theorem detect_organizations_keys (parsed : List (Option HeaderInfo × List Doc))
    (a : Str) :
    alHasKey (detect_organizations parsed) a = (mainAccountsOf parsed).contains a := by
  unfold detect_organizations mainAccountsOf
  obtain ⟨h1, h2⟩ := pass1_fold parsed ⟨[], [], []⟩ (fun b => rfl)
  by_cases hn : (parsed.foldl pass1Step ⟨[], [], []⟩).needing.isEmpty
  · simp only [hn, if_true]
    have hne : (parsed.foldl pass1Step ⟨[], [], []⟩).needing = [] := by
      cases hx : (parsed.foldl pass1Step ⟨[], [], []⟩).needing
      · rfl
      · rw [hx] at hn
        simp [List.isEmpty] at hn
    have := h2 a
    rw [hne] at this
    simpa [alHasKey_nil] using this
  · simp only [hn, Bool.false_eq_true, if_false]
    rw [pass2_fold_keys]
    rw [← alHasKey_any]
    have := h2 a
    simpa [alHasKey_nil] using this

/-! ## Claims -/

/-- C4: counterparty identity keys.  For documents that produce classified
transactions: a shared non-empty, non-zero tax ID gives both the key
`"INN:"+inn`, regardless of raw-name spelling and of account; with no tax
ID, the key is `"NAME_ACC:"+upper(best name)+"|"+account` (placeholder for
a missing account), so the same best normalised name and account give the
same key; the INN key thus takes precedence over the name/account key. -/
theorem claim_C4 :
    (∀ (inn n r a : Str), inn ≠ [] → inn ≠ ("0").data →
      mkCpId inn n r a = ("INN:").data ++ inn) ∧
    (∀ (n r a : Str), n ≠ [] → n ≠ ("?").data →
      mkCpId [] n r a =
        ("NAME_ACC:").data ++ pyUpper n ++ '|' ::
          (if !a.isEmpty then a else ("БЕЗ_СЧЕТА").data)) ∧
    (∀ (n r1 r2 a : Str), n ≠ [] → n ≠ ("?").data →
      mkCpId [] n r1 a = mkCpId [] n r2 a) := by
  have hInn : ∀ (inn n r a : Str), inn ≠ [] → inn ≠ ("0").data →
      mkCpId inn n r a = ("INN:").data ++ inn := by
    intro inn n r a h1 h2
    unfold mkCpId
    rw [if_pos]
    cases inn with
    | nil => exact absurd rfl h1
    | cons c t => simp [h2]
  have hName : ∀ (n r a : Str), n ≠ [] → n ≠ ("?").data →
      mkCpId [] n r a =
        ("NAME_ACC:").data ++ pyUpper n ++ '|' ::
          (if !a.isEmpty then a else ("БЕЗ_СЧЕТА").data) := by
    intro n r a h1 h2
    unfold mkCpId
    rw [if_neg (by simp)]
    cases n with
    | nil => exact absurd rfl h1
    | cons c t => simp [h2]
  exact ⟨hInn, hName, fun n r1 r2 a h1 h2 =>
    (hName n r1 a h1 h2).trans (hName n r2 a h1 h2).symm⟩

/-- Witness for C4 at concrete inputs: a shared tax ID forces the INN key;
equal name and account with no tax ID give equal keys. -/
theorem claim_C4_witness :
    mkCpId (("7701234567").data) (("РОМАШКА").data) (("ООО Ромашка").data) [] =
      ("INN:7701234567").data ∧
    mkCpId [] (("РОМАШКА").data) (("ООО Ромашка").data) (("40817").data) =
      mkCpId [] (("РОМАШКА").data) (("Ромашка ООО").data) (("40817").data) := by
  constructor
  · exact (claim_C4.1 (("7701234567").data) (("РОМАШКА").data)
      (("ООО Ромашка").data) [] (by decide) (by decide)).trans (by decide)
  · exact claim_C4.2.2 (("РОМАШКА").data) (("ООО Ромашка").data)
      (("Ромашка ООО").data) (("40817").data) (by decide) (by decide)

/-- C9: the "ambiguous file-account mismatch" skip branch of
`process_documents` is unreachable: no document, against any organization
map, is ever tallied with that skip reason, because the earlier skips
guarantee exactly one side is ours and the fallback by the single our-side
then always determines a direction. -/
theorem claim_C9 (m : List (Str × OrgInfo)) (d : Doc) :
    processDoc m d ≠ Except.error SkipReason.mismatch := by
  simp only [processDoc]
  by_cases hp : isOurs m d.payerAccount <;>
    by_cases hr : isOurs m d.receiverAccount <;>
      simp only [hp, hr, Bool.or_self, Bool.and_self, Bool.true_and,
        Bool.and_true, Bool.false_and, Bool.and_false, Bool.or_true,
        Bool.true_or, Bool.or_false, Bool.false_or, Bool.not_true,
        Bool.not_false, Bool.true_and, if_true, if_false,
        Bool.false_eq_true, reduceIte]
  · simp
  · by_cases hpf : d.payerAccount = d.fileAccount
    · simp only [hpf, if_true, reduceIte]
      repeat' split
      all_goals simp_all
    · simp only [hpf, if_false, Bool.false_eq_true, reduceIte]
      repeat' split
      all_goals simp_all
  · by_cases hrf : d.receiverAccount = d.fileAccount
    · simp only [hrf, if_true, reduceIte]
      repeat' split
      all_goals simp_all
    · simp only [hrf, if_false, Bool.false_eq_true, reduceIte]
      repeat' split
      all_goals simp_all
  · simp

/-- Witness for C9 at a concrete map and document: the result is not the
mismatch skip. -/
theorem claim_C9_witness :
    processDoc twoOrgMap bothOursDoc ≠ Except.error SkipReason.mismatch :=
  claim_C9 twoOrgMap bothOursDoc

/-- C7: skip correctness in `process_documents`.  A document whose payer
and receiver accounts are both keys of the organization map is skipped as
an internal transfer; a document whose amount parses to zero or a negative
value never contributes an output transaction, whatever its names and
dates. -/
theorem claim_C7 (m : List (Str × OrgInfo)) (d : Doc) :
    (isOurs m d.payerAccount = true → isOurs m d.receiverAccount = true →
      processDoc m d = Except.error SkipReason.internalTransfer) ∧
    ((safe_float d.amount).isNonpos = true →
      ∀ t : Txn, processDoc m d ≠ Except.ok t) := by
  constructor
  · intro h1 h2
    simp only [processDoc, h1, h2, Bool.or_self, Bool.and_self, Bool.not_true,
      Bool.false_eq_true, if_false, if_true]
  · intro h t
    simp only [processDoc]
    repeat' split
    all_goals simp_all

/-- Witness for C7: a transfer between the two mapped accounts is tallied
as internal; a negative-amount document yields no transaction. -/
theorem claim_C7_witness :
    processDoc twoOrgMap bothOursDoc = Except.error SkipReason.internalTransfer ∧
    processDoc twoOrgMap negAmountDoc ≠ Except.ok c2txn := by
  constructor
  · exact (claim_C7 twoOrgMap bothOursDoc).1 (by decide) (by decide)
  · exact (claim_C7 twoOrgMap negAmountDoc).2 (by decide) c2txn

/-- C10: `parse_date` accepts exactly the formats `%d.%m.%Y`, `%d-%m-%Y`,
`%Y.%m.%d` and `%Y-%m-%d`, tried in that order, and returns `None` on
anything else (including missing input); a document whose
direction-specific and generic date fields all fail to parse contributes
no output transaction, and on an otherwise-valid concrete document it is
skipped as invalid data. -/
theorem claim_C10 :
    parse_date (some (("15.03.2024").data)) = some ⟨2024, 3, 15⟩ ∧
    parse_date (some (("15-03-2024").data)) = some ⟨2024, 3, 15⟩ ∧
    parse_date (some (("2024.03.15").data)) = some ⟨2024, 3, 15⟩ ∧
    parse_date (some (("2024-03-15").data)) = some ⟨2024, 3, 15⟩ ∧
    parse_date (some (("15/03/2024").data)) = none ∧
    parse_date (some (("31.04.2024").data)) = none ∧
    parse_date none = none ∧
    processDoc (detect_organizations c2corpus) c10doc =
      Except.error SkipReason.invalidData ∧
    (∀ (m : List (Str × OrgInfo)) (d : Doc),
      parse_date (orOptStr d.dateDebited d.docDate) = none →
      parse_date (orOptStr d.dateCredited d.docDate) = none →
      ∀ t : Txn, processDoc m d ≠ Except.ok t) := by
  refine ⟨by decide, by decide, by decide, by decide, by decide, by decide,
    by decide, by decide, ?_⟩
  intro m d h1 h2 t
  simp only [processDoc, apply_ite parse_date, h1, h2, ite_self]
  repeat' split
  all_goals simp_all

/-- Witness for C10: the concrete `%d/%m/%Y`-dated document yields no
transaction against the concrete two-organization map. -/
theorem claim_C10_witness :
    processDoc twoOrgMap c10doc ≠ Except.ok c2txn :=
  claim_C10.2.2.2.2.2.2.2.2 twoOrgMap c10doc (by decide) (by decide) c2txn

theorem coreGate_iff (g : Str) : coreGate g = true ↔
    (g ≠ [] ∧ g.length ≠ 1 ∧ pyIsdigit g = false ∧
      g.all (fun c => c = '-' || c = '.' || c = ',') = false) := by
  cases g with
  | nil => simp [coreGate]
  | cons c t =>
    unfold coreGate
    simp only [List.isEmpty_cons, Bool.not_false, Bool.true_and,
      Bool.and_eq_true, Bool.not_eq_true', decide_eq_true_eq]
    constructor
    · rintro ⟨⟨hlen, hdig⟩, hpunct⟩
      refine ⟨by simp, by omega, hdig, by simpa using hpunct⟩
    · rintro ⟨_, hlen, hdig, hpunct⟩
      have hpos : 0 < (c :: t).length := by simp
      have hlen2 : (c :: t).length ≠ 1 := hlen
      refine ⟨⟨by omega, hdig⟩, by simpa using hpunct⟩

/-- C6: the validity gate of `normalize_name_core`.  Whenever the
noise-and-form cleaning (`coreClean`) produces a cleaned string, the
function rejects (returns nothing) exactly when that string is empty, a
single character, all digits, or consists only of the punctuation
characters `-`, `.`, `,`; otherwise the (case-adjusted) cleaned string is
returned. -/
theorem claim_C6 (raw form f : Str) (hc : coreClean raw form = some f) :
    (normalize_name_core raw form = none ↔
      (f = [] ∨ f.length = 1 ∨ pyIsdigit f = true ∨
        f.all (fun c => c = '-' || c = '.' || c = ',') = true)) ∧
    (normalize_name_core raw form ≠ none →
      normalize_name_core raw form = some (coreCase form f)) := by
  unfold normalize_name_core
  rw [hc]
  by_cases hg : coreGate f
  · obtain ⟨h1, h2, h3, h4⟩ := (coreGate_iff f).mp hg
    constructor
    · simp only [hg, if_true]
      constructor
      · intro h
        cases h
      · intro hbad
        rcases hbad with h | h | h | h
        · exact absurd h h1
        · exact absurd h h2
        · rw [h3] at h
          cases h
        · rw [h4] at h
          cases h
    · intro _
      simp [hg]
  · have hbad : f = [] ∨ f.length = 1 ∨ pyIsdigit f = true ∨
        f.all (fun c => c = '-' || c = '.' || c = ',') = true := by
      by_contra hno
      push_neg at hno
      obtain ⟨h1, h2, h3, h4⟩ := hno
      exact hg ((coreGate_iff f).mpr
        ⟨h1, h2, Bool.not_eq_true _ ▸ (Bool.eq_false_iff.mpr h3),
         Bool.eq_false_iff.mpr h4⟩)
    simp only [Bool.not_eq_true] at hg
    simp only [hg, Bool.false_eq_true, if_false]
    exact ⟨⟨fun _ => hbad, fun _ => by trivial⟩, fun h => absurd (by trivial) h⟩

/-- Witness for C6: the cleaned string of the spec's own example passes
the gate and is returned uppercased. -/
theorem claim_C6_witness :
    normalize_name_core (("ООО РОМАШКА").data) (("ООО").data) =
      some (("РОМАШКА").data) := by
  have h := (claim_C6 (("ООО РОМАШКА").data) (("ООО").data)
    (("РОМАШКА").data) (by decide)).2 (by decide)
  exact h.trans (by decide)

/-- C5: `detect_final_legal_form` decision order.  When the keyword scan
finds a best match, the returned form attains the longest matched span
among all matches of the catalogue on the uppercased name; if ИП attains
the longest span, ИП wins the tie; when no keyword matches, a 12-character
tax ID yields ФЛ and a 10-character one ЮЛ; and on the spec's two concrete
examples the results are ИП and ООО. -/
theorem claim_C5 :
    (∀ (name : Str) (inn : Option Str) (f : Str),
      (bestMatchForm (legalFormMatchList (pyStrip (pyUpper name)))).1 = some f →
        detect_final_legal_form name inn = f ∧
        (f, (bestMatchForm (legalFormMatchList (pyStrip (pyUpper name)))).2) ∈
          legalFormMatchList (pyStrip (pyUpper name)) ∧
        (∀ m ∈ legalFormMatchList (pyStrip (pyUpper name)),
          m.2 ≤ (bestMatchForm (legalFormMatchList (pyStrip (pyUpper name)))).2)) ∧
    (∀ (name : Str) (inn : Option Str),
      ((("ИП").data : Str), maxSpan (legalFormMatchList (pyStrip (pyUpper name)))) ∈
          legalFormMatchList (pyStrip (pyUpper name)) →
        detect_final_legal_form name inn = ("ИП").data) ∧
    (∀ (name i : Str),
      (bestMatchForm (legalFormMatchList (pyStrip (pyUpper name)))).1 = none →
      name.isEmpty = false → (pyStrip (pyUpper name)).isEmpty = false →
      i.isEmpty = false →
      ((pyStrip i).length = 12 →
        detect_final_legal_form name (some i) = ("ФЛ").data) ∧
      ((pyStrip i).length = 10 →
        detect_final_legal_form name (some i) = ("ЮЛ").data)) ∧
    detect_final_legal_form (("ИП Иванов Иван Иванович").data) none = ("ИП").data ∧
    detect_final_legal_form (("ООО \"Ромашка\" ИНН 7701234567").data) none =
      ("ООО").data := by
  refine ⟨?_, ?_, ?_, by decide, by decide⟩
  · intro name inn f h
    exact ⟨detect_keyword_eq name inn f h, bestMatchForm_mem _ f h,
      bestMatchForm_max _⟩
  · intro name inn h
    exact detect_keyword_eq name inn (("ИП").data) (bestMatchForm_ip _ h)
  · intro name i hbest hne hue hie
    constructor
    · intro h12
      unfold detect_final_legal_form
      simp only [hne, Bool.false_eq_true, if_false, hue, hbest]
      simp [innFormOf, hie, h12]
    · intro h10
      unfold detect_final_legal_form
      simp only [hne, Bool.false_eq_true, if_false, hue, hbest]
      simp [innFormOf, hie, h10]

/-- Witness for C5: the keyword branch at a concrete organisational name,
and the 12-digit tax-ID fallback at a concrete person name. -/
theorem claim_C5_witness :
    detect_final_legal_form (("ООО РОМАШКА").data) none = ("ООО").data ∧
    detect_final_legal_form (("Петров П.П.").data)
      (some (("123456789012").data)) = ("ФЛ").data := by
  constructor
  · exact (claim_C5.1 (("ООО РОМАШКА").data) none (("ООО").data) (by decide)).1
  · exact (claim_C5.2.2.1 (("Петров П.П.").data) (("123456789012").data)
      (by decide) (by decide) (by decide) (by decide)).1 (by decide)

theorem fallbackName_ne_nil (form : Str) (h : form ≠ []) :
    fallbackName form ≠ [] := by
  unfold fallbackName
  split
  · exact h
  · decide

/-- C8: totality of `normalize_and_classify`.  Empty or whitespace-only
input returns `("?", ФЛ, "")`; when core stripping yields nothing usable,
the detected form is used as the name exactly when it is a meaningful
non-default form (`fallbackName`), otherwise the placeholder; and the
returned name component is never empty. -/
theorem claim_C8 :
    (∀ (raw : Str) (inn : Option Str), pyStrip raw = [] →
      normalize_and_classify raw inn = ((("?").data, ("ФЛ").data, [])
        : Str × Str × Str)) ∧
    (∀ (raw : Str) (inn : Option Str), pyStrip raw ≠ [] →
      (normalize_name_core (pyStrip raw)
          (detect_final_legal_form (pyStrip raw) inn) = none ∨
        normalize_name_core (pyStrip raw)
          (detect_final_legal_form (pyStrip raw) inn) = some (("?").data)) →
      (normalize_and_classify raw inn).1 =
        fallbackName (detect_final_legal_form (pyStrip raw) inn)) ∧
    (∀ (raw : Str) (inn : Option Str), (normalize_and_classify raw inn).1 ≠ []) := by
  refine ⟨?_, ?_, ?_⟩
  · intro raw inn h
    unfold normalize_and_classify
    rw [h]
    rfl
  · intro raw inn hne hcore
    unfold normalize_and_classify
    have hie : (pyStrip raw).isEmpty = false := by
      cases hx : pyStrip raw
      · exact absurd hx hne
      · rfl
    simp only [hie, Bool.false_eq_true, if_false]
    rcases hcore with h | h
    · simp only [h]
    · simp [h]
  · intro raw inn
    unfold normalize_and_classify
    by_cases hie : (pyStrip raw).isEmpty
    · simp only [hie, if_true]
      decide
    · simp only [hie, Bool.false_eq_true, if_false]
      have hform := detect_ne_nil (pyStrip raw) inn
      cases hcore : normalize_name_core (pyStrip raw)
          (detect_final_legal_form (pyStrip raw) inn) with
      | none => exact fallbackName_ne_nil _ hform
      | some c =>
        by_cases hq : c = ("?").data
        · simp only [hq, if_pos rfl]
          exact fallbackName_ne_nil _ hform
        · simp only [hq, if_false]
          exact core_some_ne_nil _ _ c hcore

/-- Witness for C8: the short-circuit on whitespace-only input, applied at
a concrete string. -/
theorem claim_C8_witness :
    normalize_and_classify (("   ").data) none =
      ((("?").data, ("ФЛ").data, []) : Str × Str × Str) :=
  claim_C8.1 (("   ").data) none (by decide)

/-- Counterexample to C1 as stated: in `c1corpus`, account `"B2"` appears
as a document's receiver account, yet `detect_organizations` returns no
identity entry for it — only declared file main accounts receive
entries. -/
theorem claim_C1_cex :
    (c1corpus.flatMap (fun f => f.2)).any
        (fun d => d.receiverAccount = some (("B2").data)) = true ∧
    alGet (detect_organizations c1corpus) (("B2").data) = none := by decide

/-- C1 (amended): the identity map built by `detect_organizations` has one
entry exactly for every distinct declared file main account; an account
appearing only as a document's payer or receiver account receives no
entry. -/
theorem claim_C1_amended (parsed : List (Option HeaderInfo × List Doc))
    (a : Str) :
    alHasKey (detect_organizations parsed) a = (mainAccountsOf parsed).contains a :=
  detect_organizations_keys parsed a

/-- Counterexample to C3 as stated: in `c3corpus`, account `"A1"` has two
distinct per-transaction tax IDs (`"222"`, `"333"`), yet the resolved
identity carries the header-declared `"111"` — not one of the observed
per-transaction values. -/
theorem claim_C3_cex :
    (alGet (detect_organizations c3corpus) (("A1").data)).map (fun o => o.inn) =
      some (("111").data) ∧
    (c3corpus.flatMap (fun f => f.2)).map (fun d => d.payerInn) =
      [some (("222").data), some (("333").data)] ∧
    ("111").data ≠ ("222").data ∧ ("111").data ≠ ("333").data := by decide

/-- C3 (amended): in Pass 2 of `detect_organizations`, a per-transaction
tax ID is used only when exactly one distinct value was observed for the
account; with zero or several distinct observed values the default
identity's tax ID (recorded from the file header in Pass 1) is used; and
every resolved identity carries either that resolved tax ID or is the
default identity itself. -/
theorem claim_C3_amended :
    (∀ (iG : List (Str × List Str)) (acc dfltInn : Str) (l : List Str),
      alGet iG acc = some l → l.length = 1 →
      pass2InnFor iG acc dfltInn = l.headD []) ∧
    (∀ (iG : List (Str × List Str)) (acc dfltInn : Str) (l : List Str),
      alGet iG acc = some l → l.length ≠ 1 →
      pass2InnFor iG acc dfltInn = dfltInn) ∧
    (∀ (iG : List (Str × List Str)) (acc dfltInn : Str), alGet iG acc = none →
      pass2InnFor iG acc dfltInn = dfltInn) ∧
    (∀ (nG : List (Str × List (Str × Nat))) (iG : List (Str × List Str))
        (acc : Str) (dflt : OrgInfo),
      pass2Resolve nG iG acc dflt = dflt ∨
        (pass2Resolve nG iG acc dflt).inn = pass2InnFor iG acc dflt.inn) := by
  refine ⟨?_, ?_, ?_, ?_⟩
  · intro iG acc dfltInn l h h1
    unfold pass2InnFor
    rw [h]
    simp [h1]
  · intro iG acc dfltInn l h h1
    unfold pass2InnFor
    rw [h]
    simp [h1]
  · intro iG acc dfltInn h
    unfold pass2InnFor
    rw [h]
  · intro nG iG acc dflt
    simp only [pass2Resolve]
    repeat' split
    all_goals first | exact Or.inl rfl | exact Or.inr rfl

/-- Witness for C3 (amended) at the concrete evidence of `c3corpus`: two
distinct observed tax IDs force the header fallback. -/
theorem claim_C3_amended_witness :
    pass2InnFor [((("A1").data), [("222").data, ("333").data])] (("A1").data)
      (("111").data) = ("111").data :=
  claim_C3_amended.2.1 [((("A1").data), [("222").data, ("333").data])]
    (("A1").data) (("111").data) [("222").data, ("333").data]
    (by decide) (by decide)

/-- Counterexample to C2 as stated: on the §8 end-to-end corpus the
pipeline does produce exactly one expense transaction of amount 1500.5,
but the counterparty's detected legal form is ДРУГОЕ (OTHER), not a person
form, and the display hint is absent rather than "Иванов И.И.". -/
theorem claim_C2_cex :
    process_documents [c2doc] (detect_organizations c2corpus) = [c2txn] ∧
    c2txn.cp_legal_form = ("ДРУГОЕ").data ∧
    c2txn.cp_display_name_hint = none ∧
    ("ДРУГОЕ").data ≠ ("ИП").data ∧
    ("ДРУГОЕ").data ≠ ("ФЛ").data := by decide

/-- C2 (amended): end-to-end on the §8 scenario, `detect_organizations`
maps the main account to normalised name РОМАШКА with form ООО (LLC), and
`process_documents` yields exactly one classified transaction with
direction expense, amount 1500.5, normalised counterparty name
"ИВАНОВ И.И.", legal form ДРУГОЕ and no display hint. -/
theorem claim_C2_amended :
    alGet (detect_organizations c2corpus) (("40702810000000012345").data) =
      some ⟨("ООО РОМАШКА").data, ("РОМАШКА").data, ("ООО").data, []⟩ ∧
    process_documents [c2doc] (detect_organizations c2corpus) = [c2txn] ∧
    c2txn.type = ("expense").data ∧
    DecQ.toRat c2txn.amount = 1500.5 ∧
    c2txn.cp_name_normalized = ("ИВАНОВ И.И.").data ∧
    c2txn.cp_legal_form = ("ДРУГОЕ").data ∧
    c2txn.cp_display_name_hint = none := by
  refine ⟨by decide, by decide, by decide, ?_, by decide, by decide, by decide⟩
  show DecQ.toRat ⟨150050, 2⟩ = 1500.5
  norm_num [DecQ.toRat]
